import Mathlib

/-!
# COLO proxy netlink client (tools/libxl/libxl_colo_proxy.c)

A shallow embedding of `colo_proxy_send`, `colo_proxy_recv`, `colo_proxy_setup`,
`colo_proxy_teardown`, `colo_proxy_preresume` and `colo_proxy_checkpoint`.

The system calls are the environment.  Their answers are given beforehand
(`Env` for `socket`, `bind`, `sendmsg` and the content of fresh heap memory,
`Sys.inbox` for the successive `recvmsg` calls), and every call the code makes
is appended to `Sys.trace`.

Integer widths follow the LP64 little-endian Linux targets of the Xen tools:
`int` is 32 bits, `int64_t`/`size_t` are 64 bits, `uint32_t` is 32 bits.
-/

namespace ColoProxy

/-! ## Constants of `<linux/netlink.h>`, `<errno.h>` and of the source file -/

/-- The value of `NLMSG_ALIGNTO`. -/
def NLMSG_ALIGNTO : Nat := 4

/-- The macro `NLMSG_ALIGN(len)`: `len` rounded up to a multiple of four. -/
def NLMSG_ALIGN (len : Nat) : Nat := (len + NLMSG_ALIGNTO - 1) / NLMSG_ALIGNTO * NLMSG_ALIGNTO

/-- The size of `struct nlmsghdr`: `len:u32, type:u16, flags:u16, seq:u32, pid:u32`. -/
def sizeof_nlmsghdr : Nat := 16

/-- The size of `struct nlmsgerr`: `int error` followed by a `struct nlmsghdr`. -/
def sizeof_nlmsgerr : Nat := 4 + sizeof_nlmsghdr

/-- The size of `struct colo_msg`, a single `bool`. -/
def sizeof_colo_msg : Nat := 1

/-- The macro `NLMSG_HDRLEN`. -/
def NLMSG_HDRLEN : Nat := NLMSG_ALIGN sizeof_nlmsghdr

/-- The macro `NLMSG_LENGTH(len)`. -/
def NLMSG_LENGTH (len : Nat) : Nat := len + NLMSG_HDRLEN

/-- The macro `NLMSG_SPACE(len)`. -/
def NLMSG_SPACE (len : Nat) : Nat := NLMSG_ALIGN (NLMSG_LENGTH len)

/-- The message type `NLMSG_ERROR`. -/
def NLMSG_ERROR : Nat := 2

/-- The first message type free for protocol use, `NLMSG_MIN_TYPE`. -/
def NLMSG_MIN_TYPE : Nat := 16

/-- The flag `NLM_F_REQUEST`. -/
def NLM_F_REQUEST : Nat := 1

/-- The flag `NLM_F_ACK`. -/
def NLM_F_ACK : Nat := 4

/-- The errno value `EAGAIN` (equal to `EWOULDBLOCK` on Linux). -/
def EAGAIN : Nat := 11

/-- The errno value `EIO`. -/
def EIO : Nat := 5

/-- The enumeration `enum colo_netlink_op`. -/
inductive colo_netlink_op where
  | COLO_QUERY_CHECKPOINT
  | COLO_CHECKPOINT
  | COLO_FAILOVER
  | COLO_PROXY_INIT
  | COLO_PROXY_RESET
  deriving DecidableEq, Repr

/-- The integer value of an enumerator: they count up from `NLMSG_MIN_TYPE + 1`. -/
def colo_netlink_op.val : colo_netlink_op → Int
  | .COLO_QUERY_CHECKPOINT => NLMSG_MIN_TYPE + 1
  | .COLO_CHECKPOINT => NLMSG_MIN_TYPE + 2
  | .COLO_FAILOVER => NLMSG_MIN_TYPE + 3
  | .COLO_PROXY_INIT => NLMSG_MIN_TYPE + 4
  | .COLO_PROXY_RESET => NLMSG_MIN_TYPE + 5

/-! ## Machine integers -/

/-- Conversion of an integer to the 32-bit `int` (two's complement wrap). -/
def to_int (x : Int) : Int := (x + 2 ^ 31) % 2 ^ 32 - 2 ^ 31

/-- Conversion of a `uint32_t` value to `int`: values from 2^31 on read as negative. -/
def u32_to_int (n : Nat) : Int := if n < 2 ^ 31 then (n : Int) else (n : Int) - 2 ^ 32

/-- Conversion of an integer to an unsigned type of `w` bits. -/
def to_uint (w : Nat) (x : Int) : Nat := (x % 2 ^ w).toNat

/-! ## Data -/

/-- The fields of `struct nlmsghdr`. -/
structure nlmsghdr where
  nlmsg_len : Nat
  nlmsg_type : Nat
  nlmsg_flags : Nat
  nlmsg_seq : Nat
  nlmsg_pid : Nat
  deriving DecidableEq, Repr

/-- The fields of `libxl__colo_proxy_state` the file uses (`ao` is only a
logging handle). -/
structure libxl__colo_proxy_state where
  sock_fd : Int
  index : Int
  deriving DecidableEq, Repr

/-- What one `bind` call answers: success (0), or -1 with `errno == EADDRINUSE`,
or -1 with another errno. -/
inductive BindResult where
  | success
  | addr_in_use
  | other_error
  deriving DecidableEq, Repr

/-- What one `recvmsg` call answers: -1 with an errno, or the bytes copied to
`iov_base` (their count, at most `iov_len`, is the return value) with the
`MSG_TRUNC` bit of `msg_flags`. -/
inductive RecvOutcome where
  | error (errno : Nat)
  | data (bytes : List Nat) (trunc : Bool)
  deriving DecidableEq, Repr

/-- The calls the code makes to the system and to the allocator. -/
inductive Event where
  | socket (ret : Int)
  | bind (fd : Int) (nl_pid : Nat)
  | sendmsg (fd : Int) (msg : nlmsghdr)
  | setsockopt (fd : Int) (tv_sec tv_usec : Nat)
  | malloc (size : Nat)
  | realloc (size : Nat)
  | recvmsg (fd : Int) (iov_off : Int) (iov_len : Nat)
  | free (nonnull : Bool)
  | close (fd : Int)
  deriving DecidableEq, Repr

/-- The answers of the environment that do not depend on the order of calls:
the descriptor `socket` returns, the answer of `bind` for each `nl_pid`, the
return value of `sendmsg`, and the bytes found in freshly allocated memory. -/
structure Env where
  socket_ret : Int
  bind_result : Nat → BindResult
  sendmsg_ret : Int
  heap : Nat → Nat

/-- The state the calls act on: the session, the `SO_RCVTIMEO` setting of its
socket as `(tv_sec, tv_usec)`, the answers of the coming `recvmsg` calls, and
the calls made so far. -/
structure Sys where
  cps : libxl__colo_proxy_state
  rcvtimeo : Nat × Nat
  inbox : List RecvOutcome
  trace : List Event

/-- A receive buffer: the byte at each offset from `tmp`. -/
abbrev Buffer := Nat → Nat

/-- Copy `bytes` into the buffer starting at offset `off`. -/
def Buffer.write (b : Buffer) (off : Nat) (bytes : List Nat) : Buffer :=
  fun i => if off ≤ i ∧ i < off + bytes.length then bytes.getD (i - off) 0 else b i

/-- The first `n` bytes of a buffer. -/
def Buffer.firstBytes (b : Buffer) (n : Nat) : List Nat := (List.range n).map b

/-- Little-endian 16-bit field at offset `off`. -/
def Buffer.le16 (b : Buffer) (off : Nat) : Nat := b off + 256 * b (off + 1)

/-- Little-endian 32-bit field at offset `off`. -/
def Buffer.le32 (b : Buffer) (off : Nat) : Nat :=
  b off + 256 * b (off + 1) + 65536 * b (off + 2) + 16777216 * b (off + 3)

/-- The field `h->nlmsg_len` of the header at the start of the buffer. -/
def Buffer.nlmsg_len (b : Buffer) : Nat := b.le32 0

/-- The field `h->nlmsg_type` of the header at the start of the buffer. -/
def Buffer.nlmsg_type (b : Buffer) : Nat := b.le16 4

/-- The field `err->error` of the `struct nlmsgerr` at `NLMSG_DATA(h)`; only
whether it is zero matters. -/
def Buffer.nlmsgerr_error (b : Buffer) : Nat := b.le32 (NLMSG_LENGTH 0)

/-- The byte stored in the field `m->is_checkpoint` of the `struct colo_msg` at
`NLMSG_DATA(h)`. -/
def Buffer.is_checkpoint (b : Buffer) : Nat := b (NLMSG_LENGTH 0)

/-- The value of `b ? 1 : 0` for a `bool` lvalue `b` whose stored byte is `x`.  The two
values of a `bool` are stored as 1 and 0, and for them this is the conditional as
written.  The load of a `bool` is taken to yield one of the two, so the conditional is
the conversion of the stored byte to `int`: a byte that is no value of a `bool` comes
back as it is. -/
def bool_cond (x : Nat) : Int := if x = 1 then 1 else if x = 0 then 0 else x

/-- Append an event to the trace. -/
def Sys.emit (s : Sys) (e : Event) : Sys := { s with trace := s.trace ++ [e] }

/-! ## colo_proxy_send -/

/-- The header `colo_proxy_send` fills in for the request `type`. -/
def request_header (cps : libxl__colo_proxy_state) (type : Int) : nlmsghdr :=
  let nlmsg_len := NLMSG_SPACE 0
  let nlmsg_flags := NLM_F_REQUEST
  let nlmsg_flags :=
    if type = colo_netlink_op.COLO_PROXY_INIT.val then nlmsg_flags ||| NLM_F_ACK else nlmsg_flags
  { nlmsg_len := nlmsg_len
    nlmsg_flags := nlmsg_flags
    nlmsg_seq := 0
    nlmsg_pid := to_uint 32 cps.index
    nlmsg_type := to_uint 16 type }

/-- The function `colo_proxy_send(cps, NULL, 0, type)`: one `sendmsg` of the
header alone (`iov_len = msg.nlmsg_len`); the return value is that of
`sendmsg` (a value `<= 0` is only logged). -/
def colo_proxy_send (env : Env) (s : Sys) (type : Int) : Int × Sys :=
  let msg := request_header s.cps type
  let s := s.emit (Event.sendmsg s.cps.sock_fd msg)
  (env.sendmsg_ret, s)

/-! ## colo_proxy_recv -/

/-- The locals of `colo_proxy_recv` that live across the `next:` loop. -/
structure RecvLocals where
  size : Nat
  len : Int
  iov_off : Int
  iov_len : Nat
  tmp : Buffer

/-- What `colo_proxy_recv` hands back: its return value and `*buff`
(`none` is `NULL`). -/
structure RecvResult where
  ret : Int
  buff : Option Buffer

/-- The `setsockopt(cps->sock_fd, SOL_SOCKET, SO_RCVTIMEO, &tv, sizeof(tv))` call; it
is taken to succeed (the code does not look at its result). -/
def set_rcvtimeo (s : Sys) (tv_sec tv_usec : Nat) : Sys :=
  { s with rcvtimeo := (tv_sec, tv_usec)
           trace := s.trace ++ [Event.setsockopt s.cps.sock_fd tv_sec tv_usec] }

/-- The code from the label `out:` of `colo_proxy_recv` on. -/
def recv_out (timeout_us : Nat) (s : Sys) : Sys :=
  if timeout_us ≠ 0 then set_rcvtimeo s 0 0 else s

/-- The loop at the label `next:` of `colo_proxy_recv`, up to the `return`.
The recursion is on the answers still to come: with none left the `recvmsg`
call never returns and there is no result.  There is no result either when the
32-bit `size` wraps (to 0): `realloc(tmp, 0)` gives the buffer up. -/
def recv_next (timeout_us : Nat) : List RecvOutcome → RecvLocals → Sys → Option (RecvResult × Sys)
  | [], _, _ => none
  | r :: rest, l, s =>
    let s := { s with inbox := rest
                      trace := s.trace ++ [Event.recvmsg s.cps.sock_fd l.iov_off l.iov_len] }
    let (ret, tmp) : Int × Buffer :=
      match r with
      | .error _ => (-1, l.tmp)
      | .data bytes _ => (to_int bytes.length, l.tmp.write l.iov_off.toNat bytes)
    if ret ≤ 0 then
      -- err: free(tmp); *buff = NULL;
      let s := s.emit (Event.free true)
      some ({ ret := ret, buff := none }, recv_out timeout_us s)
    else
      let len := l.len + ret
      let trunc := match r with
        | .error _ => false
        | .data _ t => t
      if trunc then
        let size := (l.size + 16384) % 2 ^ 32
        if size = 0 then none
        else
          let s := s.emit (Event.realloc size)
          recv_next timeout_us rest
            { size := size, len := len, iov_off := len
              iov_len := to_uint 64 (size - len), tmp := tmp } s
      else
        some ({ ret := to_int len, buff := some tmp }, recv_out timeout_us s)

/-- The function `colo_proxy_recv(cps, &buff, timeout_us)`. -/
def colo_proxy_recv (env : Env) (s : Sys) (timeout_us : Nat) : Option (RecvResult × Sys) :=
  let size := 16384
  let s := s.emit (Event.malloc size)
  let s :=
    if timeout_us ≠ 0 then set_rcvtimeo s (timeout_us / 1000000) (timeout_us % 1000000) else s
  recv_next timeout_us s.inbox
    { size := size, len := 0, iov_off := 0, iov_len := size, tmp := env.heap } s

/-! ## colo_proxy_setup, colo_proxy_teardown -/

/-- How the `retry:` loop of `colo_proxy_setup` ends: with a bound `nl_pid`, or
at `out` with the value `ret` has there. -/
inductive BindExit where
  | bound (nl_pid : Nat)
  | out (ret : Int)
  deriving DecidableEq, Repr

/-- The loop at the label `retry:` of `colo_proxy_setup`; `i` and `ret` are the
locals of that name.  The first argument bounds the number of rounds (the
counter stops the loop after at most ten). -/
def bind_retry (env : Env) (skfd : Int) : Nat → Int → Int → List Event → Option (BindExit × List Event)
  | 0, _, _, _ => none
  | fuel + 1, i, ret, trace =>
    let nl_pid := to_uint 32 i
    let i := i + 1
    if i > 10 then some (.out ret, trace)
    else
      let trace := trace ++ [Event.bind skfd nl_pid]
      match env.bind_result nl_pid with
      | .addr_in_use => bind_retry env skfd fuel i (-1) trace
      | .other_error => some (.out (-1), trace)
      | .success => some (.bound nl_pid, trace)

/-- The code from the label `out:` of `colo_proxy_setup` on. -/
def setup_out (ret : Int) (buff : Option Buffer) (s : Sys) : Int × Sys :=
  let s := s.emit (Event.free buff.isSome)
  if ret ≠ 0 then
    let s := s.emit (Event.close s.cps.sock_fd)
    (ret, { s with cps := { s.cps with sock_fd := -1 } })
  else (ret, s)

/-- The value `ret` has at the label `out:` once the acknowledgment has been received,
given the value `ret` it has from the send; `r` is what `colo_proxy_recv` handed back.
There is no value when the header would be read through a `NULL` buffer. -/
def ack_ret (ret : Int) (r : RecvResult) : Option Int :=
  let size := r.ret
  if size < 0 then some ret
  else if size ≠ 0 then
    match r.buff with
    | none => none
    | some h =>
      if h.nlmsg_type = NLMSG_ERROR then
        if to_uint 64 (size - sizeof_nlmsghdr) < sizeof_nlmsgerr then some ret
        else if h.nlmsgerr_error ≠ 0 then some ret
        else some 0
      else some 0
  else some 0

/-- The handshake of `colo_proxy_setup`, from `cps->index = sa.nl_pid` to the
`return`. -/
def setup_handshake (env : Env) (nl_pid : Nat) (s : Sys) : Option (Int × Sys) :=
  let s := { s with cps := { s.cps with index := u32_to_int nl_pid } }
  let (ret, s) := colo_proxy_send env s colo_netlink_op.COLO_PROXY_INIT.val
  if ret < 0 then some (setup_out ret none s)
  else
    match colo_proxy_recv env s 500000 with
    | none => none
    | some (r, s) =>
      match ack_ret ret r with
      | none => none
      | some ret => some (setup_out ret r.buff s)

/-- The function `colo_proxy_setup(cps)`; `ERROR_FAIL` is the libxl error code
of that name. -/
def colo_proxy_setup (env : Env) (ERROR_FAIL : Int) (s : Sys) : Option (Int × Sys) :=
  let skfd := env.socket_ret
  let s := s.emit (Event.socket skfd)
  if skfd < 0 then some (setup_out ERROR_FAIL none s)
  else
    let s := { s with cps := { s.cps with sock_fd := skfd } }
    match bind_retry env skfd 10 1 ERROR_FAIL s.trace with
    | none => none
    | some (.out ret, trace) => some (setup_out ret none { s with trace := trace })
    | some (.bound nl_pid, trace) => setup_handshake env nl_pid { s with trace := trace }

/-- The function `colo_proxy_teardown(cps)`. -/
def colo_proxy_teardown (s : Sys) : Sys :=
  if s.cps.sock_fd ≥ 0 then
    let s := s.emit (Event.close s.cps.sock_fd)
    { s with cps := { s.cps with sock_fd := -1 } }
  else s

/-! ## colo_proxy_preresume, colo_proxy_postresume, colo_proxy_checkpoint -/

/-- The function `colo_proxy_preresume(cps)`: the result of the send is dropped. -/
def colo_proxy_preresume (env : Env) (s : Sys) : Sys :=
  (colo_proxy_send env s colo_netlink_op.COLO_CHECKPOINT.val).2

/-- The function `colo_proxy_postresume(cps)`: nothing to do. -/
def colo_proxy_postresume (s : Sys) : Sys := s

/-- The function `colo_proxy_checkpoint(cps, timeout_us)`.  There is no result
when `colo_proxy_recv` has none, or when the header would be read through a
`NULL` buffer. -/
def colo_proxy_checkpoint (env : Env) (s : Sys) (timeout_us : Nat) : Option (Int × Sys) :=
  match colo_proxy_recv env s timeout_us with
  | none => none
  | some (r, s) =>
    let size := r.ret
    if size ≤ 0 then some (0, s)
    else
      match r.buff with
      | none => none
      | some h =>
        if h.nlmsg_type = NLMSG_ERROR then some (-1, s.emit (Event.free true))
        else if h.nlmsg_len < NLMSG_LENGTH sizeof_colo_msg then some (-1, s.emit (Event.free true))
        else some (bool_cond h.is_checkpoint, s.emit (Event.free true))

/-! ## Views of a trace and of the receive loop, used to state the properties -/

/-- The `nl_pid` of the `bind` calls of a trace, in order. -/
def bind_calls (trace : List Event) : List Nat :=
  trace.filterMap fun e => match e with
    | .bind _ k => some k
    | _ => none

/-- The events of the receive loop proper: `recvmsg`, `realloc`, `free`. -/
def Event.is_recv_step : Event → Bool
  | .recvmsg _ _ _ => true
  | .realloc _ => true
  | .free _ => true
  | _ => false

/-- The events of `colo_proxy_recv` and of the buffer it hands over: `malloc`, `realloc`,
`recvmsg`, `free`, `setsockopt`. -/
def Event.is_recv_event : Event → Bool
  | .malloc _ => true
  | .realloc _ => true
  | .recvmsg _ _ _ => true
  | .free _ => true
  | .setsockopt _ _ _ => true
  | _ => false

/-- The system state right after the `recvmsg` call of a round. -/
def after_recvmsg (s : Sys) (l : RecvLocals) (rest : List RecvOutcome) : Sys :=
  { s with inbox := rest
           trace := s.trace ++ [Event.recvmsg s.cps.sock_fd l.iov_off l.iov_len] }

/-- The state in which the `retry:` loop leaves the system: the descriptor is recorded
and the trace holds the calls made so far. -/
def after_bind (env : Env) (s : Sys) (trace : List Event) : Sys :=
  { s with cps := { s.cps with sock_fd := env.socket_ret }, trace := trace }

/-- The state after the init request of the handshake has been sent. -/
def after_init_send (k : Nat) (s : Sys) : Sys :=
  { s with cps := { s.cps with index := u32_to_int k }
           trace := s.trace ++ [Event.sendmsg s.cps.sock_fd
              (request_header { s.cps with index := u32_to_int k }
                colo_netlink_op.COLO_PROXY_INIT.val)] }

/-- The effect on the buffer of receiving the fragments one after the other from
offset `off` on. -/
def write_all (b : Buffer) (off : Nat) : List (List Nat) → Buffer
  | [] => b
  | f :: fs => write_all (b.write off f) (off + f.length) fs

/-- Whether every fragment is no longer than the capacity offered to it, `size - len` at
its turn, where `size` grows by 16384 and `len` by the fragment from turn to turn. -/
def frags_fit : Nat → Nat → List (List Nat) → Bool
  | _, _, [] => true
  | size, len, f :: fs =>
    decide (f.length ≤ size - len) && frags_fit (size + 16384) (len + f.length) fs

/-- The answers of `recvmsg` for a message that comes as the fragments `frags`, each
flagged truncated, and then `last`, not flagged. -/
def fragment_answers (frags : List (List Nat)) (last : List Nat) : List RecvOutcome :=
  frags.map (fun f => RecvOutcome.data f true) ++ [RecvOutcome.data last false]

/-- The total length of a list of fragments. -/
def total_length (frags : List (List Nat)) : Nat := (frags.map List.length).sum

/-- What the reassembly promises for the fragments `fs`: `colo_proxy_recv` returns their
total length and a buffer that starts with their concatenation. -/
def Reassembles (env : Env) (s : Sys) (timeout_us : Nat) (fs : List (List Nat)) : Prop :=
  ∃ b s', colo_proxy_recv env s timeout_us
      = some ({ ret := total_length fs, buff := some b }, s') ∧
    b.firstBytes (total_length fs) = fs.flatten

/-- An environment in which `socket` returns descriptor 3, every `bind` succeeds,
`sendmsg` sends the 16 bytes, and fresh memory is zero. -/
def env_ok : Env :=
  { socket_ret := 3, bind_result := fun _ => BindResult.success, sendmsg_ret := 16,
    heap := fun _ => 0 }

/-- An environment in which candidate 1 is in use and every other one is free. -/
def env_one_in_use : Env :=
  { socket_ret := 3
    bind_result := fun k => if k = 1 then BindResult.addr_in_use else BindResult.success
    sendmsg_ret := 16
    heap := fun _ => 0 }

/-- An environment in which candidate 1 is in use and the `bind` of candidate 2 fails
for another reason. -/
def env_second_fails : Env :=
  { socket_ret := 3
    bind_result := fun k => if k = 1 then BindResult.addr_in_use else BindResult.other_error
    sendmsg_ret := 16
    heap := fun _ => 0 }

/-- A session on descriptor 3 with index 1 whose socket will answer `inbox`. -/
def sys_with (inbox : List RecvOutcome) : Sys :=
  { cps := { sock_fd := 3, index := 1 }, rcvtimeo := (0, 0), inbox := inbox, trace := [] }

/-- The same session when its socket has a receive timeout of 9.000009 s left over. -/
def sys_timed (inbox : List RecvOutcome) : Sys :=
  { cps := { sock_fd := 3, index := 1 }, rcvtimeo := (9, 9), inbox := inbox, trace := [] }

/-- A fragment that fills the 16384 bytes offered to it. -/
def full_fragment : List Nat := List.replicate 16384 0

/-- An acknowledgment of the init request with error code 0: a header of type
`NLMSG_ERROR` and length 36, the code, and the header of the request. -/
def ack_ok : List Nat :=
  [36, 0, 0, 0, 2, 0, 0, 0, 0, 0, 0, 0, 2, 0, 0, 0,
   0, 0, 0, 0,
   16, 0, 0, 0, 20, 0, 5, 0, 0, 0, 0, 0, 2, 0, 0, 0]

/-- The descriptors of the `close` calls of a trace, in order. -/
def close_calls (trace : List Event) : List Int :=
  trace.filterMap fun e => match e with
    | .close fd => some fd
    | _ => none

/-- A session that holds descriptor 5, open and bound to index 1. -/
def sys_open : Sys :=
  { cps := { sock_fd := 5, index := 1 }, rcvtimeo := (0, 0), inbox := [], trace := [] }

/-- An environment in which `socket` fails. -/
def env_no_socket : Env :=
  { socket_ret := -1, bind_result := fun _ => BindResult.success, sendmsg_ret := 16,
    heap := fun _ => 0 }

/-- The state in which the receive of the acknowledgment starts when candidate `k` was
bound: the descriptor and the index are recorded, and the calls made are `socket`, the
`bind` calls of 1..k and the `sendmsg` of the init request. -/
def handshake_state (env : Env) (s : Sys) (k : Nat) : Sys :=
  after_init_send k (after_bind env s (s.trace ++ Event.socket env.socket_ret ::
    (List.range' 1 k).map (Event.bind env.socket_ret)))

/-- An acknowledgment that lets the handshake pass: nothing was received (result 0), or
a frame that is not of type `NLMSG_ERROR`, or a frame of type `NLMSG_ERROR` of at least
header size + `nlmsgerr` size received bytes with the error code 0. -/
def clean_ack (r : RecvResult) : Prop :=
  r.ret = 0 ∨
  (∃ h, r.buff = some h ∧ 0 < r.ret ∧ h.nlmsg_type ≠ NLMSG_ERROR) ∨
  (∃ h, r.buff = some h ∧ h.nlmsg_type = NLMSG_ERROR ∧
    ((sizeof_nlmsghdr + sizeof_nlmsgerr : Nat) : Int) ≤ r.ret ∧ h.nlmsgerr_error = 0)

/-- The `(iov_off, iov_len)` of the `recvmsg` calls of a trace, in order: the write
offset in the buffer and the capacity offered. -/
def recv_calls (trace : List Event) : List (Int × Nat) :=
  trace.filterMap fun e => match e with
    | .recvmsg _ off len => some (off, len)
    | _ => none

/-- The sizes of the `malloc` and `realloc` calls of a trace, in order: the capacities
the receive buffer has had. -/
def alloc_sizes (trace : List Event) : List Nat :=
  trace.filterMap fun e => match e with
    | .malloc size => some size
    | .realloc size => some size
    | _ => none

/-- The answers of a message whose fragments `[1, 2]` and `[3]` come truncated and whose
third receive fails. -/
def inbox_two_fragments : List RecvOutcome :=
  [RecvOutcome.data [1, 2] true, RecvOutcome.data [3] true, RecvOutcome.error EIO]

/-- The calls `colo_proxy_recv` makes on `inbox_two_fragments` without timeout. -/
def trace_two_fragments : List Event :=
  [Event.malloc 16384, Event.recvmsg 3 0 16384, Event.realloc 32768,
   Event.recvmsg 3 2 32766, Event.realloc 49152, Event.recvmsg 3 3 49149, Event.free true]

/-! ## Lemmas on the loops and on the trace -/

theorem recv_next_nil (t : Nat) (l : RecvLocals) (s : Sys) : recv_next t [] l s = none := rfl

theorem recv_next_error (t errno : Nat) (rest : List RecvOutcome) (l : RecvLocals) (s : Sys) :
    recv_next t (RecvOutcome.error errno :: rest) l s
      = some ({ ret := -1, buff := none },
          recv_out t ((after_recvmsg s l rest).emit (Event.free true))) := by
  simp [recv_next, after_recvmsg]

theorem recv_next_nonpos (t : Nat) (bytes : List Nat) (trunc : Bool) (rest : List RecvOutcome)
    (l : RecvLocals) (s : Sys) (h : to_int bytes.length ≤ 0) :
    recv_next t (RecvOutcome.data bytes trunc :: rest) l s
      = some ({ ret := to_int bytes.length, buff := none },
          recv_out t ((after_recvmsg s l rest).emit (Event.free true))) := by
  simp [recv_next, after_recvmsg, h]

theorem recv_next_final (t : Nat) (bytes : List Nat) (rest : List RecvOutcome)
    (l : RecvLocals) (s : Sys) (h : 0 < to_int bytes.length) :
    recv_next t (RecvOutcome.data bytes false :: rest) l s
      = some ({ ret := to_int (l.len + to_int bytes.length)
                buff := some (l.tmp.write l.iov_off.toNat bytes) },
          recv_out t (after_recvmsg s l rest)) := by
  simp [recv_next, after_recvmsg, not_le.mpr h]

theorem recv_next_trunc (t : Nat) (bytes : List Nat) (rest : List RecvOutcome)
    (l : RecvLocals) (s : Sys) (h : 0 < to_int bytes.length) :
    recv_next t (RecvOutcome.data bytes true :: rest) l s
      = if (l.size + 16384) % 2 ^ 32 = 0 then none
        else recv_next t rest
          { size := (l.size + 16384) % 2 ^ 32
            len := l.len + to_int bytes.length
            iov_off := l.len + to_int bytes.length
            iov_len := to_uint 64 (((l.size + 16384) % 2 ^ 32 : Nat) - (l.len + to_int bytes.length))
            tmp := l.tmp.write l.iov_off.toNat bytes }
          ((after_recvmsg s l rest).emit (Event.realloc ((l.size + 16384) % 2 ^ 32))) := by
  simp [recv_next, after_recvmsg, not_le.mpr h, Sys.emit]

theorem recv_out_spec (t : Nat) (s : Sys) :
    (recv_out t s).cps = s.cps ∧ (recv_out t s).inbox = s.inbox ∧
    (recv_out t s).rcvtimeo = (if t ≠ 0 then (0, 0) else s.rcvtimeo) ∧
    (recv_out t s).trace
      = s.trace ++ (if t ≠ 0 then [Event.setsockopt s.cps.sock_fd 0 0] else []) := by
  by_cases ht : t = 0 <;> simp [recv_out, set_rcvtimeo, ht]

/-- Frame of the receive loop: the session is untouched, the timeout is reset when one was
given, and the calls made are a `recvmsg` first, then loop events, then the reset. -/
theorem recv_next_frame (t : Nat) :
    ∀ (inbox : List RecvOutcome) (l : RecvLocals) (s : Sys) (r : RecvResult) (s' : Sys),
      recv_next t inbox l s = some (r, s') →
      s'.cps = s.cps ∧
      s'.rcvtimeo = (if t ≠ 0 then (0, 0) else s.rcvtimeo) ∧
      ∃ mid, s'.trace = s.trace ++ Event.recvmsg s.cps.sock_fd l.iov_off l.iov_len :: mid
                ++ (if t ≠ 0 then [Event.setsockopt s.cps.sock_fd 0 0] else []) ∧
        ∀ e ∈ mid, e.is_recv_step = true := by
  intro inbox
  induction inbox with
  | nil => intro l s r s' h; simp [recv_next] at h
  | cons o rest ih =>
    intro l s r s' h
    have hout := recv_out_spec t
    cases o with
    | error errno =>
      rw [recv_next_error] at h
      simp only [Option.some.injEq, Prod.mk.injEq] at h
      obtain ⟨-, rfl⟩ := h
      refine ⟨by simp [hout, Sys.emit, after_recvmsg], by simp [hout, Sys.emit, after_recvmsg],
        [Event.free true], by simp [hout, Sys.emit, after_recvmsg], by simp [Event.is_recv_step]⟩
    | data bytes trunc =>
      by_cases hpos : to_int bytes.length ≤ 0
      · rw [recv_next_nonpos _ _ _ _ _ _ hpos] at h
        simp only [Option.some.injEq, Prod.mk.injEq] at h
        obtain ⟨-, rfl⟩ := h
        refine ⟨by simp [hout, Sys.emit, after_recvmsg], by simp [hout, Sys.emit, after_recvmsg],
          [Event.free true], by simp [hout, Sys.emit, after_recvmsg], by simp [Event.is_recv_step]⟩
      · have hpos' : 0 < to_int bytes.length := not_le.mp hpos
        cases trunc with
        | false =>
          rw [recv_next_final _ _ _ _ _ hpos'] at h
          simp only [Option.some.injEq, Prod.mk.injEq] at h
          obtain ⟨-, rfl⟩ := h
          refine ⟨by simp [hout, after_recvmsg], by simp [hout, after_recvmsg],
            [], by simp [hout, after_recvmsg], by simp⟩
        | true =>
          rw [recv_next_trunc _ _ _ _ _ hpos'] at h
          split at h
          · simp at h
          · obtain ⟨hc, ht, mid, hmid, hall⟩ := ih _ _ _ _ h
            refine ⟨by simpa [Sys.emit, after_recvmsg] using hc,
              by simpa [Sys.emit, after_recvmsg] using ht, ?_⟩
            refine ⟨Event.realloc ((l.size + 16384) % 2 ^ 32) :: Event.recvmsg s.cps.sock_fd
              (l.len + to_int bytes.length)
              (to_uint 64 (((l.size + 16384) % 2 ^ 32 : Nat) - (l.len + to_int bytes.length)))
              :: mid, ?_, ?_⟩
            · simpa [Sys.emit, after_recvmsg] using hmid
            · intro e he
              simp only [List.mem_cons] at he
              rcases he with rfl | rfl | he
              · rfl
              · rfl
              · exact hall e he

theorem to_int_of_lt (x : Int) (h0 : 0 ≤ x) (h1 : x < 2 ^ 31) : to_int x = x := by
  unfold to_int
  omega

theorem firstBytes_write (b : Buffer) (off : Nat) (f : List Nat) :
    (b.write off f).firstBytes (off + f.length) = b.firstBytes off ++ f := by
  unfold Buffer.firstBytes
  rw [List.range_add, List.map_append]
  congr 1
  · apply List.map_congr_left
    intro i hi
    have : i < off := List.mem_range.mp hi
    simp [Buffer.write]
    omega
  · apply List.ext_getElem
    · simp
    · intro i h1 h2
      simp [Buffer.write, List.getD_eq_getElem?_getD, List.getElem?_eq_getElem h2]
      omega

theorem firstBytes_write_all (fs : List (List Nat)) :
    ∀ (b : Buffer) (off : Nat),
      (write_all b off fs).firstBytes (off + total_length fs) = b.firstBytes off ++ fs.flatten := by
  induction fs with
  | nil => intro b off; simp [write_all, total_length]
  | cons f fs ih =>
    intro b off
    have h := ih (b.write off f) (off + f.length)
    have e : off + total_length (f :: fs) = off + f.length + total_length fs := by
      simp [total_length]; omega
    rw [write_all, e, h, firstBytes_write]
    simp

theorem total_length_cons (f : List Nat) (fs : List (List Nat)) :
    total_length (f :: fs) = f.length + total_length fs := by
  simp [total_length]

/-- The receive loop on a fragmented message, as long as the 32-bit `size` does not wrap:
the result is the 32-bit `int` image of the accumulated length, with the fragments laid
out one after the other. -/
theorem recv_next_fragments (t : Nat) :
    ∀ (frags : List (List Nat)) (last : List Nat) (rest : List RecvOutcome) (l : RecvLocals)
      (s : Sys),
      (∀ f ∈ frags, 0 < f.length ∧ f.length < 2 ^ 31) → 0 < last.length →
      last.length < 2 ^ 31 → l.size + 16384 * frags.length < 2 ^ 32 → 0 ≤ l.len →
      l.iov_off = l.len →
      ∃ s', recv_next t (fragment_answers frags last ++ rest) l s
          = some ({ ret := to_int (l.len + total_length (frags ++ [last]))
                    buff := some (write_all l.tmp l.len.toNat (frags ++ [last])) }, s') ∧
        s'.inbox = rest := by
  intro frags
  induction frags with
  | nil =>
    intro last rest l s _ hl0 hl1 _ hlen hoff
    have e : to_int (last.length : Int) = last.length := to_int_of_lt _ (by omega) (by omega)
    have hpos : 0 < to_int last.length := by rw [e]; omega
    refine ⟨recv_out t (after_recvmsg s l rest), ?_, ?_⟩
    · simp only [fragment_answers, List.map_nil, List.nil_append, List.singleton_append]
      rw [recv_next_final _ _ _ _ _ hpos, e, hoff]
      simp [total_length, write_all]
    · simp [(recv_out_spec t _).2.1, after_recvmsg]
  | cons f fs ih =>
    intro last rest l s hfs hl0 hl1 hsize hlen hoff
    have hf := hfs f (List.mem_cons_self _ _)
    have e : to_int (f.length : Int) = f.length := to_int_of_lt _ (by omega) (by omega)
    have hpos : 0 < to_int f.length := by rw [e]; omega
    have hsz : (l.size + 16384) % 2 ^ 32 = l.size + 16384 := by
      simp only [List.length_cons] at hsize
      omega
    have hne : ¬ ((l.size + 16384) % 2 ^ 32 = 0) := by omega
    simp only [fragment_answers, List.map_cons, List.cons_append]
    rw [recv_next_trunc _ _ _ _ _ hpos, if_neg hne, e]
    obtain ⟨s', h, hin⟩ := ih last rest
      { size := (l.size + 16384) % 2 ^ 32
        len := l.len + f.length
        iov_off := l.len + f.length
        iov_len := to_uint 64 (((l.size + 16384) % 2 ^ 32 : Nat) - (l.len + f.length))
        tmp := l.tmp.write l.iov_off.toNat f }
      ((after_recvmsg s l
          (List.map (fun f => RecvOutcome.data f true) fs ++ [RecvOutcome.data last false]
            ++ rest)).emit (Event.realloc ((l.size + 16384) % 2 ^ 32)))
      (fun g hg => hfs g (List.mem_cons_of_mem _ hg)) hl0 hl1
      (by simp only [List.length_cons] at hsize; simp only [hsz]; omega)
      (by simp only; omega) rfl
    refine ⟨s', ?_, hin⟩
    simp only [fragment_answers] at h
    rw [h]
    have e1 : l.len + (f.length : Int) + total_length (fs ++ [last])
        = l.len + total_length (f :: fs ++ [last]) := by
      rw [List.cons_append, total_length_cons]; push_cast; omega
    have e2 : (l.len + (f.length : Int)).toNat = l.len.toNat + f.length := by omega
    simp only [e1, e2, hoff, List.cons_append, write_all]

/-- The function `colo_proxy_recv` on a fragmented message, as long as the 32-bit `size`
does not wrap. -/
theorem recv_fragments (env : Env) (s : Sys) (t : Nat) (frags : List (List Nat))
    (last : List Nat) (rest : List RecvOutcome)
    (hinbox : s.inbox = fragment_answers frags last ++ rest)
    (hfs : ∀ f ∈ frags, 0 < f.length ∧ f.length < 2 ^ 31) (hl0 : 0 < last.length)
    (hl1 : last.length < 2 ^ 31) (hcount : frags.length < 2 ^ 18 - 1) :
    ∃ s', colo_proxy_recv env s t
        = some ({ ret := to_int (total_length (frags ++ [last]))
                  buff := some (write_all env.heap 0 (frags ++ [last])) }, s') ∧
      s'.inbox = rest := by
  by_cases ht : t = 0
  · have h := recv_next_fragments t frags last rest
      { size := 16384, len := 0, iov_off := 0, iov_len := 16384, tmp := env.heap }
      (s.emit (Event.malloc 16384)) hfs hl0 hl1 (by simp only; omega) (le_refl _) rfl
    simpa [colo_proxy_recv, ht, Sys.emit, hinbox] using h
  · have h := recv_next_fragments t frags last rest
      { size := 16384, len := 0, iov_off := 0, iov_len := 16384, tmp := env.heap }
      (set_rcvtimeo (s.emit (Event.malloc 16384)) (t / 1000000) (t % 1000000)) hfs hl0 hl1
      (by simp only; omega) (le_refl _) rfl
    simpa [colo_proxy_recv, ht, Sys.emit, set_rcvtimeo, hinbox] using h

theorem full_fragment_length : full_fragment.length = 16384 := List.length_replicate _ _

theorem frags_fit_full (n : Nat) :
    ∀ size len, len + 16384 ≤ size →
      frags_fit size len (List.replicate n full_fragment ++ [full_fragment]) = true := by
  induction n with
  | zero =>
    intro size len h
    simp only [List.replicate_zero, List.nil_append, frags_fit, full_fragment_length,
      Bool.and_true, decide_eq_true_eq]
    omega
  | succ n ih =>
    intro size len h
    simp only [List.replicate_succ, List.cons_append, frags_fit, Bool.and_eq_true,
      decide_eq_true_eq, full_fragment_length]
    exact ⟨by omega, ih _ _ (by omega)⟩

theorem total_length_full (n : Nat) :
    total_length (List.replicate n full_fragment ++ [full_fragment]) = (n + 1) * 16384 := by
  simp only [total_length, List.map_append, List.map_replicate, List.sum_append,
    List.sum_replicate, full_fragment_length, List.map_cons, List.map_nil, List.sum_cons,
    List.sum_nil, smul_eq_mul]
  ring

/-- Frame of `colo_proxy_recv`: the session is untouched, the calls made are the `malloc`,
the `setsockopt` that installs the timeout when one is given, the first `recvmsg` on the
whole buffer, the other loop events, and the `setsockopt` that resets the timeout. -/
theorem recv_frame (env : Env) (s : Sys) (t : Nat) (r : RecvResult) (s' : Sys)
    (h : colo_proxy_recv env s t = some (r, s')) :
    s'.cps = s.cps ∧
    s'.rcvtimeo = (if t ≠ 0 then (0, 0) else s.rcvtimeo) ∧
    ∃ mid, s'.trace = s.trace ++ Event.malloc 16384 ::
        ((if t ≠ 0 then [Event.setsockopt s.cps.sock_fd (t / 1000000) (t % 1000000)] else [])
          ++ Event.recvmsg s.cps.sock_fd 0 16384 :: mid
          ++ (if t ≠ 0 then [Event.setsockopt s.cps.sock_fd 0 0] else [])) ∧
      ∀ e ∈ mid, e.is_recv_step = true := by
  by_cases ht : t = 0
  · simp only [colo_proxy_recv, ht, ne_eq, not_true_eq_false, if_false] at h
    obtain ⟨hc, hr, mid, hmid, hall⟩ := recv_next_frame 0 _ _ _ _ _ h
    exact ⟨by simpa [Sys.emit] using hc, by simpa [Sys.emit, ht] using hr, mid,
      by simpa [Sys.emit, ht] using hmid, hall⟩
  · simp only [colo_proxy_recv, ht, ne_eq, not_false_eq_true, if_true] at h
    obtain ⟨hc, hr, mid, hmid, hall⟩ := recv_next_frame t _ _ _ _ _ h
    exact ⟨by simpa [Sys.emit, set_rcvtimeo] using hc,
      by simpa [Sys.emit, set_rcvtimeo, ht] using hr, mid,
      by simpa [Sys.emit, set_rcvtimeo, ht] using hmid, hall⟩

theorem to_uint_of_lt (w : Nat) (n : Nat) (h : n < 2 ^ w) : to_uint w (n : Int) = n := by
  unfold to_uint
  have : ((n : Int) % 2 ^ w) = n := by
    apply Int.emod_eq_of_lt (by omega)
    exact_mod_cast h
  rw [this]
  simp

/-- One round of the `retry:` loop, for a counter in 1..9. -/
theorem bind_retry_step (env : Env) (fd : Int) (fuel i : Nat) (ret : Int) (trace : List Event)
    (hi : i < 10) :
    bind_retry env fd (fuel + 1) (i : Int) ret trace =
      match env.bind_result i with
      | .addr_in_use => bind_retry env fd fuel ((i + 1 : Nat) : Int) (-1) (trace ++ [Event.bind fd i])
      | .other_error => some (.out (-1), trace ++ [Event.bind fd i])
      | .success => some (.bound i, trace ++ [Event.bind fd i]) := by
  have h1 : to_uint 32 (i : Int) = i := to_uint_of_lt 32 i (by omega)
  have h2 : ¬ ((i : Int) + 1 > 10) := by omega
  simp only [bind_retry, h1, h2, if_false]
  cases env.bind_result i <;> simp

/-- The round of the `retry:` loop in which the counter is 10: no `bind` is made. -/
theorem bind_retry_last (env : Env) (fd : Int) (fuel : Nat) (ret : Int) (trace : List Event) :
    bind_retry env fd (fuel + 1) 10 ret trace = some (.out ret, trace) := by
  simp [bind_retry]

/-- What the `retry:` loop does from the counter value `i` on: it binds the candidates
`i, i+1, ...` in order, `n` of them and none beyond 9, all but the last in use. -/
theorem bind_retry_spec (env : Env) (fd : Int) :
    ∀ (fuel i : Nat) (ret : Int) (trace : List Event), 1 ≤ i → i ≤ 10 → 11 ≤ i + fuel →
      ∃ n exit, bind_retry env fd fuel (i : Int) ret trace
          = some (exit, trace ++ (List.range' i n).map (Event.bind fd)) ∧
        i + n ≤ 10 ∧
        (∀ j, i ≤ j → j + 1 < i + n → env.bind_result j = BindResult.addr_in_use) ∧
        (match exit with
          | .bound k => 1 ≤ n ∧ k + 1 = i + n ∧ env.bind_result k = BindResult.success
          | .out r =>
            (∃ k, 1 ≤ n ∧ k + 1 = i + n ∧ env.bind_result k = BindResult.other_error ∧ r = -1) ∨
            (i + n = 10 ∧ (∀ j, i ≤ j → j < 10 → env.bind_result j = BindResult.addr_in_use) ∧
              (n = 0 → r = ret) ∧ (1 ≤ n → r = -1))) := by
  intro fuel
  induction fuel with
  | zero => intro i ret trace h1 h2 h3; omega
  | succ fuel ih =>
    intro i ret trace h1 h2 h3
    by_cases h10 : i = 10
    · subst h10
      refine ⟨0, .out ret, ?_, by omega, fun j _ _ => by omega, Or.inr ⟨rfl, ?_, fun _ => rfl,
        fun h => by omega⟩⟩
      · simpa using bind_retry_last env fd fuel ret trace
      · intro j _ _; omega
    · have hi : i < 10 := by omega
      rw [bind_retry_step env fd fuel i ret trace hi]
      cases hb : env.bind_result i with
      | success =>
        exact ⟨1, .bound i, by simp, by omega, fun j _ _ => by omega, le_refl _, rfl, hb⟩
      | other_error =>
        exact ⟨1, .out (-1), by simp, by omega, fun j _ _ => by omega,
          Or.inl ⟨i, le_refl _, rfl, hb, rfl⟩⟩
      | addr_in_use =>
        obtain ⟨n, exit, hrun, hle, huse, hexit⟩ :=
          ih (i + 1) (-1) (trace ++ [Event.bind fd i]) (by omega) (by omega) (by omega)
        refine ⟨n + 1, exit, ?_, by omega, ?_, ?_⟩
        · simp only [hrun, List.range'_succ, List.map_cons, List.append_assoc,
            List.singleton_append]
        · intro j hj1 hj2
          by_cases hj : j = i
          · rw [hj]; exact hb
          · exact huse j (by omega) (by omega)
        · cases exit with
          | bound k => exact ⟨by omega, by omega, hexit.2.2⟩
          | out r =>
            rcases hexit with ⟨k, -, hk, hbk, hr⟩ | ⟨h10', hall, hr0, hr⟩
            · exact Or.inl ⟨k, by omega, by omega, hbk, hr⟩
            · refine Or.inr ⟨by omega, ?_, fun h => by omega, fun _ => ?_⟩
              · intro j hj1 hj2
                by_cases hj : j = i
                · rw [hj]; exact hb
                · exact hall j (by omega) hj2
              · by_cases hn : n = 0
                · exact hr0 hn
                · exact hr (by omega)

theorem is_recv_event_of_step (e : Event) (h : e.is_recv_step = true) :
    e.is_recv_event = true := by
  cases e <;> simp_all [Event.is_recv_step, Event.is_recv_event]

/-- The calls `colo_proxy_recv` adds to the trace are all receive events. -/
theorem recv_events (env : Env) (s : Sys) (t : Nat) (r : RecvResult) (s' : Sys)
    (h : colo_proxy_recv env s t = some (r, s')) :
    s'.cps = s.cps ∧ ∃ evs, s'.trace = s.trace ++ evs ∧ ∀ e ∈ evs, e.is_recv_event = true := by
  obtain ⟨hc, -, mid, hmid, hall⟩ := recv_frame env s t r s' h
  refine ⟨hc, _, hmid, ?_⟩
  intro e he
  have hcases : e = Event.malloc 16384 ∨
      e = Event.setsockopt s.cps.sock_fd (t / 1000000) (t % 1000000) ∨
      e = Event.recvmsg s.cps.sock_fd 0 16384 ∨ e ∈ mid ∨
      e = Event.setsockopt s.cps.sock_fd 0 0 := by
    by_cases ht : t = 0
    · simp only [ht, ne_eq, not_true_eq_false, if_false, List.nil_append, List.append_nil,
        List.mem_cons] at he
      tauto
    · simp only [ht, ne_eq, not_false_eq_true, if_true, List.mem_cons, List.mem_append,
        List.mem_singleton, List.not_mem_nil, or_false] at he
      tauto
  rcases hcases with rfl | rfl | rfl | he | rfl
  · rfl
  · rfl
  · rfl
  · exact is_recv_event_of_step e (hall e he)
  · rfl

theorem setup_out_spec (ret : Int) (buff : Option Buffer) (s : Sys) :
    (setup_out ret buff s).1 = ret ∧
    (setup_out ret buff s).2.cps.index = s.cps.index ∧
    (setup_out ret buff s).2.cps.sock_fd = (if ret ≠ 0 then -1 else s.cps.sock_fd) ∧
    (setup_out ret buff s).2.trace = s.trace ++ Event.free buff.isSome ::
      (if ret ≠ 0 then [Event.close s.cps.sock_fd] else []) := by
  by_cases h : ret = 0 <;> simp [setup_out, Sys.emit, h]

theorem setup_handshake_eq (env : Env) (k : Nat) (s : Sys) :
    setup_handshake env k s =
      if env.sendmsg_ret < 0 then some (setup_out env.sendmsg_ret none (after_init_send k s))
      else
        match colo_proxy_recv env (after_init_send k s) 500000 with
        | none => none
        | some (r, s2) =>
          match ack_ret env.sendmsg_ret r with
          | none => none
          | some v => some (setup_out v r.buff s2) := by
  have e : colo_proxy_send env { s with cps := { s.cps with index := u32_to_int k } }
      colo_netlink_op.COLO_PROXY_INIT.val = (env.sendmsg_ret, after_init_send k s) := rfl
  unfold setup_handshake
  simp only []
  rw [e]

/-- Frame of the handshake: it records the index, sends the init request, makes receive
events only, and closes the descriptor exactly when it returns nonzero. -/
theorem setup_handshake_frame (env : Env) (k : Nat) (s : Sys) (ret : Int) (s' : Sys)
    (h : setup_handshake env k s = some (ret, s')) :
    s'.cps.index = u32_to_int k ∧
    s'.cps.sock_fd = (if ret ≠ 0 then -1 else s.cps.sock_fd) ∧
    ∃ mid, s'.trace = (after_init_send k s).trace ++ mid
          ++ (if ret ≠ 0 then [Event.close s.cps.sock_fd] else []) ∧
      ∀ e ∈ mid, e.is_recv_event = true := by
  -- every way out of the handshake is `setup_out` on a state reached by receive events
  have key : ∀ (ret0 : Int) (b : Option Buffer) (s2 : Sys) (evs : List Event),
      s2.cps = (after_init_send k s).cps →
      s2.trace = (after_init_send k s).trace ++ evs →
      (∀ e ∈ evs, e.is_recv_event = true) →
      setup_out ret0 b s2 = (ret, s') →
      s'.cps.index = u32_to_int k ∧
      s'.cps.sock_fd = (if ret ≠ 0 then -1 else s.cps.sock_fd) ∧
      ∃ mid, s'.trace = (after_init_send k s).trace ++ mid
            ++ (if ret ≠ 0 then [Event.close s.cps.sock_fd] else []) ∧
        ∀ e ∈ mid, e.is_recv_event = true := by
    intro ret0 b s2 evs hc ht hall he
    obtain ⟨o1, o2, o3, o4⟩ := setup_out_spec ret0 b s2
    rw [he] at o1 o2 o3 o4
    simp only at o1 o2 o3 o4
    subst o1
    refine ⟨by rw [o2, hc]; rfl, by rw [o3, hc]; rfl, evs ++ [Event.free b.isSome], ?_, ?_⟩
    · rw [o4, ht, hc]
      simp [after_init_send]
    · intro e he'
      simp only [List.mem_append, List.mem_singleton] at he'
      rcases he' with he' | rfl
      · exact hall e he'
      · rfl
  rw [setup_handshake_eq] at h
  by_cases hs : env.sendmsg_ret < 0
  · rw [if_pos hs] at h
    exact key _ _ _ [] rfl (by simp) (by simp) (Option.some.inj h)
  · rw [if_neg hs] at h
    cases hrecv : colo_proxy_recv env (after_init_send k s) 500000 with
    | none => rw [hrecv] at h; exact absurd h (by simp)
    | some p =>
      obtain ⟨r, s2⟩ := p
      rw [hrecv] at h
      obtain ⟨hc, evs, hev, hall⟩ := recv_events _ _ _ _ _ hrecv
      cases hack : ack_ret env.sendmsg_ret r with
      | none => simp only [hack] at h; exact absurd h (by simp)
      | some v =>
        simp only [hack] at h
        exact key _ _ _ evs hc hev hall (Option.some.inj h)

theorem bind_calls_append (l1 l2 : List Event) :
    bind_calls (l1 ++ l2) = bind_calls l1 ++ bind_calls l2 := by
  simp [bind_calls, List.filterMap_append]

theorem bind_calls_binds (fd : Int) (ks : List Nat) :
    bind_calls (ks.map (Event.bind fd)) = ks := by
  induction ks with
  | nil => rfl
  | cons k ks ih => simpa [bind_calls] using ih

theorem bind_calls_recv_events (l : List Event) (h : ∀ e ∈ l, e.is_recv_event = true) :
    bind_calls l = [] := by
  induction l with
  | nil => rfl
  | cons e l ih =>
    have he := h e (List.mem_cons_self _ _)
    have hl := ih (fun x hx => h x (List.mem_cons_of_mem _ hx))
    cases e <;> simp_all [bind_calls, Event.is_recv_event]

theorem u32_to_int_of_lt (n : Nat) (h : n < 2 ^ 31) : u32_to_int n = n := by
  unfold u32_to_int
  rw [if_pos h]

/-- The function `colo_proxy_setup` split at the `retry:` loop: with the socket
open, the loop binds the candidates 1..n in order, all but the last in use, and then
either the handshake runs on the bound candidate n, or setup leaves through `out`
without a handshake because candidate n failed otherwise or because 1..9 are all in use. -/
theorem setup_cases (env : Env) (ERROR_FAIL : Int) (s : Sys) (hsock : 0 ≤ env.socket_ret) :
    ∃ n, n ≤ 9 ∧
      (∀ j, 1 ≤ j → j < n → env.bind_result j = BindResult.addr_in_use) ∧
      ((1 ≤ n ∧ env.bind_result n = BindResult.success ∧
          colo_proxy_setup env ERROR_FAIL s
            = setup_handshake env n (after_bind env s (s.trace ++ Event.socket env.socket_ret
                :: (List.range' 1 n).map (Event.bind env.socket_ret)))) ∨
       (((1 ≤ n ∧ env.bind_result n = BindResult.other_error) ∨
          (n = 9 ∧ env.bind_result 9 = BindResult.addr_in_use)) ∧
          colo_proxy_setup env ERROR_FAIL s
            = some (setup_out (-1) none (after_bind env s (s.trace ++ Event.socket env.socket_ret
                :: (List.range' 1 n).map (Event.bind env.socket_ret)))))) := by
  obtain ⟨n, exit, hrun, hle, huse, hexit⟩ := bind_retry_spec env env.socket_ret 10 1
    ERROR_FAIL (s.trace ++ [Event.socket env.socket_ret]) (le_refl _) (by omega) (by omega)
  have hsetup : colo_proxy_setup env ERROR_FAIL s =
      match bind_retry env env.socket_ret 10 1 ERROR_FAIL
          (s.trace ++ [Event.socket env.socket_ret]) with
      | none => none
      | some (.out ret, trace) => some (setup_out ret none (after_bind env s trace))
      | some (.bound nl_pid, trace) => setup_handshake env nl_pid (after_bind env s trace) := by
    simp only [colo_proxy_setup, not_lt.mpr hsock, if_false, Sys.emit, after_bind]
  have hcast : ((1 : Nat) : Int) = 1 := rfl
  rw [hcast] at hrun
  rw [hsetup, hrun]
  have htrace : s.trace ++ [Event.socket env.socket_ret]
        ++ List.map (Event.bind env.socket_ret) (List.range' 1 n)
      = s.trace ++ Event.socket env.socket_ret
        :: List.map (Event.bind env.socket_ret) (List.range' 1 n) := by simp
  refine ⟨n, by omega, fun j h1 h2 => huse j h1 (by omega), ?_⟩
  cases exit with
  | bound k =>
    obtain ⟨h1, hk, hs⟩ := hexit
    have hkn : k = n := by omega
    subst hkn
    exact Or.inl ⟨by omega, hs, by simp only [htrace]⟩
  | out r =>
    rcases hexit with ⟨k, h1, hk, hbk, hr⟩ | ⟨h10, hall, hr0, hr⟩
    · have hkn : k = n := by omega
      subst hkn
      exact Or.inr ⟨Or.inl ⟨by omega, hbk⟩, by simp only [htrace, hr]⟩
    · have hn : n = 9 := by omega
      subst hn
      exact Or.inr ⟨Or.inr ⟨rfl, hall 9 (by omega) (by omega)⟩,
        by simp only [htrace, hr (by omega)]⟩

theorem recv_error_head (env : Env) (s : Sys) (timeout_us errno : Nat)
    (rest : List RecvOutcome) :
    ∃ s', colo_proxy_recv env { s with inbox := RecvOutcome.error errno :: rest } timeout_us
      = some ({ ret := -1, buff := none }, s') := by
  by_cases ht : timeout_us = 0 <;>
    simp [colo_proxy_recv, recv_next, Sys.emit, set_rcvtimeo, ht]

theorem recv_small (env : Env) (s : Sys) (rest : List RecvOutcome) :
    ∃ s', colo_proxy_recv env
        { s with inbox := RecvOutcome.data [1] true :: RecvOutcome.data [] false :: rest } 0
      = some ({ ret := 0, buff := none }, s') := by
  simp [colo_proxy_recv, recv_next, Sys.emit, to_int]

/-- The receive loop has no result when the truncated fragments make the 32-bit `size`
wrap. -/
theorem recv_next_wraps (t : Nat) :
    ∀ (frags : List (List Nat)) (rest : List RecvOutcome) (l : RecvLocals) (s : Sys),
      frags ≠ [] → (∀ f ∈ frags, 0 < f.length ∧ f.length < 2 ^ 31) →
      l.size + 16384 * frags.length = 2 ^ 32 →
      recv_next t (frags.map (fun f => RecvOutcome.data f true) ++ rest) l s = none := by
  intro frags
  induction frags with
  | nil => intro rest l s h; exact absurd rfl h
  | cons f fs ih =>
    intro rest l s _ hfs hsize
    have hf := hfs f (List.mem_cons_self _ _)
    have e : to_int (f.length : Int) = f.length := to_int_of_lt _ (by omega) (by omega)
    have hpos : 0 < to_int f.length := by rw [e]; omega
    simp only [List.length_cons] at hsize
    simp only [List.map_cons, List.cons_append]
    rw [recv_next_trunc _ _ _ _ _ hpos]
    by_cases hw : (l.size + 16384) % 2 ^ 32 = 0
    · rw [if_pos hw]
    · rw [if_neg hw]
      have hne : fs ≠ [] := by
        intro h0
        rw [h0] at hsize
        simp only [List.length_nil] at hsize
        omega
      have hlen : 0 < fs.length := List.length_pos.mpr hne
      exact ih rest _ _ hne (fun g hg => hfs g (List.mem_cons_of_mem _ hg))
        (by simp only; omega)

/-- The function `colo_proxy_recv` has no result on 2^18 - 1 truncated fragments. -/
theorem recv_wraps (env : Env) (s : Sys) (t : Nat) (frags : List (List Nat))
    (rest : List RecvOutcome)
    (hinbox : s.inbox = frags.map (fun f => RecvOutcome.data f true) ++ rest)
    (hfs : ∀ f ∈ frags, 0 < f.length ∧ f.length < 2 ^ 31)
    (hcount : frags.length = 2 ^ 18 - 1) :
    colo_proxy_recv env s t = none := by
  have hne : frags ≠ [] := by
    intro h0
    rw [h0] at hcount
    simp at hcount
  by_cases ht : t = 0
  · have h := recv_next_wraps t frags rest
      { size := 16384, len := 0, iov_off := 0, iov_len := 16384, tmp := env.heap }
      (s.emit (Event.malloc 16384)) hne hfs (by simp only; omega)
    simpa [colo_proxy_recv, ht, Sys.emit, hinbox] using h
  · have h := recv_next_wraps t frags rest
      { size := 16384, len := 0, iov_off := 0, iov_len := 16384, tmp := env.heap }
      (set_rcvtimeo (s.emit (Event.malloc 16384)) (t / 1000000) (t % 1000000)) hne hfs
      (by simp only; omega)
    simpa [colo_proxy_recv, ht, Sys.emit, set_rcvtimeo, hinbox] using h

theorem frags_fit_small (n : Nat) :
    ∀ size len, len < size →
      frags_fit size len (List.replicate n [1] ++ [[1]]) = true := by
  induction n with
  | zero =>
    intro size len h
    simp only [List.replicate_zero, List.nil_append, frags_fit, List.length_singleton,
      Bool.and_true, decide_eq_true_eq]
    omega
  | succ n ih =>
    intro size len h
    simp only [List.replicate_succ, List.cons_append, frags_fit, Bool.and_eq_true,
      decide_eq_true_eq, List.length_singleton]
    exact ⟨by omega, ih _ _ (by omega)⟩

theorem total_length_small (n : Nat) :
    total_length (List.replicate n [1] ++ [[1]]) = n + 1 := by
  simp only [total_length, List.map_append, List.map_replicate, List.sum_append,
    List.sum_replicate, List.length_singleton, List.map_cons, List.map_nil, List.sum_cons,
    List.sum_nil, smul_eq_mul]
  omega

theorem recv_wraps_small (n : Nat) (hn : n = 2 ^ 18 - 1) :
    colo_proxy_recv env_ok (sys_with (fragment_answers (List.replicate n [1]) [1])) 0
      = none :=
  recv_wraps env_ok (sys_with (fragment_answers (List.replicate n [1]) [1])) 0
    (List.replicate n [1]) [RecvOutcome.data [1] false] rfl
    (by intro f hf; rw [List.eq_of_mem_replicate hf, List.length_singleton]; omega)
    (by rw [List.length_replicate]; exact hn)

theorem to_int_range (x : Int) : -2 ^ 31 ≤ to_int x ∧ to_int x < 2 ^ 31 := by
  unfold to_int
  omega

/-- What the receive loop returns fits the 32-bit `int`. -/
theorem recv_next_ret_range (t : Nat) :
    ∀ (inbox : List RecvOutcome) (l : RecvLocals) (s : Sys) (r : RecvResult) (s' : Sys),
      recv_next t inbox l s = some (r, s') → -2 ^ 31 ≤ r.ret ∧ r.ret < 2 ^ 31 := by
  intro inbox
  induction inbox with
  | nil => intro l s r s' h; simp [recv_next] at h
  | cons o rest ih =>
    intro l s r s' h
    cases o with
    | error errno =>
      rw [recv_next_error] at h
      simp only [Option.some.injEq, Prod.mk.injEq] at h
      obtain ⟨rfl, -⟩ := h
      exact ⟨by norm_num, by norm_num⟩
    | data bytes trunc =>
      by_cases hpos : to_int bytes.length ≤ 0
      · rw [recv_next_nonpos _ _ _ _ _ _ hpos] at h
        simp only [Option.some.injEq, Prod.mk.injEq] at h
        obtain ⟨rfl, -⟩ := h
        exact to_int_range _
      · have hpos' : 0 < to_int bytes.length := not_le.mp hpos
        cases trunc with
        | false =>
          rw [recv_next_final _ _ _ _ _ hpos'] at h
          simp only [Option.some.injEq, Prod.mk.injEq] at h
          obtain ⟨rfl, -⟩ := h
          exact to_int_range _
        | true =>
          rw [recv_next_trunc _ _ _ _ _ hpos'] at h
          split at h
          · simp at h
          · exact ih _ _ _ _ h

/-- What `colo_proxy_recv` returns fits the 32-bit `int`. -/
theorem recv_ret_range (env : Env) (s : Sys) (t : Nat) (r : RecvResult) (s' : Sys)
    (h : colo_proxy_recv env s t = some (r, s')) : -2 ^ 31 ≤ r.ret ∧ r.ret < 2 ^ 31 := by
  unfold colo_proxy_recv at h
  exact recv_next_ret_range t _ _ _ _ _ h

/-- A clean acknowledgment leaves `ret` at 0, given that the result fits an `int`. -/
theorem ack_ret_clean (ret : Int) (r : RecvResult) (hr : r.ret < 2 ^ 31) (h : clean_ack r) :
    ack_ret ret r = some 0 := by
  rcases h with h0 | ⟨b, hb, hpos, hty⟩ | ⟨b, hb, hty, hlen, herr⟩
  · simp [ack_ret, h0]
  · have h1 : ¬ r.ret < 0 := by omega
    have h2 : r.ret ≠ 0 := by omega
    simp [ack_ret, h1, h2, hb, hty]
  · have hlen' : (36 : Int) ≤ r.ret := by
      have : ((sizeof_nlmsghdr + sizeof_nlmsgerr : Nat) : Int) = 36 := by decide
      omega
    have h1 : ¬ r.ret < 0 := by omega
    have h2 : r.ret ≠ 0 := by omega
    have h3 : ¬ to_uint 64 (r.ret - (sizeof_nlmsghdr : Nat)) < sizeof_nlmsgerr := by
      have e1 : ((sizeof_nlmsghdr : Nat) : Int) = 16 := by decide
      have e2 : sizeof_nlmsgerr = 20 := by decide
      rw [e1, e2]
      unfold to_uint
      omega
    simp [ack_ret, h1, h2, hb, hty, h3, herr]

theorem close_calls_append (l1 l2 : List Event) :
    close_calls (l1 ++ l2) = close_calls l1 ++ close_calls l2 := by
  simp [close_calls, List.filterMap_append]

theorem close_calls_binds (fd : Int) (ks : List Nat) :
    close_calls (ks.map (Event.bind fd)) = [] := by
  simp [close_calls]

theorem close_calls_recv_events (l : List Event) (h : ∀ e ∈ l, e.is_recv_event = true) :
    close_calls l = [] := by
  induction l with
  | nil => rfl
  | cons e l ih =>
    have he := h e (List.mem_cons_self _ _)
    have hl := ih (fun x hx => h x (List.mem_cons_of_mem _ hx))
    cases e <;> simp_all [close_calls, Event.is_recv_event]

/-- The 32-bit `int` image of the total length of 131072 full fragments. -/
theorem to_int_total_full :
    to_int ((total_length (List.replicate 131071 full_fragment ++ [full_fragment]) : Nat) : Int)
      = -2147483648 := by
  rw [total_length_full]
  norm_num [to_int]

/-- A result `<= 0` of `colo_proxy_recv` makes `colo_proxy_checkpoint` return 0. -/
theorem checkpoint_of_recv_nonpos (env : Env) (s : Sys) (t : Nat) (r : RecvResult) (s' : Sys)
    (h : colo_proxy_recv env s t = some (r, s')) (hr : r.ret ≤ 0) :
    (colo_proxy_checkpoint env s t).map Prod.fst = some 0 := by
  simp [colo_proxy_checkpoint, h, hr]

theorem to_int_of_pos_of_lt (n : Nat) (hpos : 0 < to_int n) (hlt : n < 2 ^ 32) :
    to_int (n : Int) = n := by
  unfold to_int at hpos ⊢
  omega

theorem to_uint_of_nonneg (x : Int) (h0 : 0 ≤ x) (h1 : x < 2 ^ 64) :
    to_uint 64 x = x.toNat := by
  unfold to_uint
  rw [Int.emod_eq_of_lt h0 h1]

theorem recv_calls_append (l1 l2 : List Event) :
    recv_calls (l1 ++ l2) = recv_calls l1 ++ recv_calls l2 := by
  simp [recv_calls, List.filterMap_append]

theorem alloc_sizes_append (l1 l2 : List Event) :
    alloc_sizes (l1 ++ l2) = alloc_sizes l1 ++ alloc_sizes l2 := by
  simp [alloc_sizes, List.filterMap_append]

/-- The invariant of the receive loop, from a round with `n0` truncated fragments and
`total0` bytes behind it: after the truncated fragments `frags`, each received with a
positive count and no longer than the capacity offered, the next `recvmsg` is made at
the offset of all bytes so far, with the capacity grown by 16384 per fragment. -/
theorem recv_next_invariant (tm : Nat) :
    ∀ (frags : List (List Nat)) (rest : List RecvOutcome) (l : RecvLocals) (s : Sys)
      (r : RecvResult) (s' : Sys) (n0 total0 : Nat),
      recv_next tm (frags.map (fun f => RecvOutcome.data f true) ++ rest) l s = some (r, s') →
      (∀ f ∈ frags, 0 < to_int f.length) →
      frags_fit l.size total0 frags = true →
      l.size = 16384 * (n0 + 1) → l.len = total0 → l.iov_off = total0 →
      l.iov_len = l.size - total0 → total0 ≤ 16384 * n0 →
      n0 + frags.length < 2 ^ 18 - 1 →
      ∃ pre post, s'.trace = s.trace ++ pre ++
            Event.recvmsg s.cps.sock_fd ((total0 + total_length frags : Nat) : Int)
              (16384 * (n0 + frags.length + 1) - (total0 + total_length frags)) :: post ∧
        (recv_calls pre).length = frags.length ∧
        alloc_sizes pre = (List.range' (n0 + 2) frags.length).map (fun j => 16384 * j) ∧
        total0 + total_length frags ≤ 16384 * (n0 + frags.length) := by
  intro frags
  induction frags with
  | nil =>
    intro rest l s r s' n0 total0 hrun _ _ hsize hlen hoff hiov htot _
    obtain ⟨-, -, mid, hmid, -⟩ := recv_next_frame tm _ _ _ _ _ hrun
    refine ⟨[], mid ++ (if tm ≠ 0 then [Event.setsockopt s.cps.sock_fd 0 0] else []),
      ?_, rfl, rfl, ?_⟩
    · rw [hmid, hoff, hiov, hsize]
      simp [total_length]
    · simpa [total_length] using htot
  | cons f fs ih =>
    intro rest l s r s' n0 total0 hrun hpos hfit hsize hlen hoff hiov htot hcount
    have hf := hpos f (List.mem_cons_self _ _)
    simp only [frags_fit, Bool.and_eq_true, decide_eq_true_eq] at hfit
    obtain ⟨hfitf, hfits⟩ := hfit
    simp only [List.length_cons] at hcount
    have hflt : f.length < 2 ^ 32 := by omega
    have e : to_int (f.length : Int) = f.length := to_int_of_pos_of_lt _ hf hflt
    have hsz : (l.size + 16384) % 2 ^ 32 = 16384 * (n0 + 1 + 1) := by omega
    have hne : ¬ ((l.size + 16384) % 2 ^ 32 = 0) := by omega
    simp only [List.map_cons, List.cons_append] at hrun
    rw [recv_next_trunc _ _ _ _ _ hf, if_neg hne, e, hsz, hlen] at hrun
    have hiov' : to_uint 64 (((16384 * (n0 + 1 + 1) : Nat) : Int) - ((total0 : Int) + f.length))
        = 16384 * (n0 + 1 + 1) - (total0 + f.length) := by
      rw [to_uint_of_nonneg _ (by omega) (by omega)]
      omega
    rw [hiov'] at hrun
    obtain ⟨pre, post, htr, hrc, hal, htot'⟩ := ih rest _ _ r s' (n0 + 1) (total0 + f.length)
      hrun (fun g hg => hpos g (List.mem_cons_of_mem _ hg))
      (by simpa [hsize, Nat.mul_add] using hfits) rfl (by push_cast; rfl) (by push_cast; rfl)
      rfl (by omega) (by omega)
    refine ⟨Event.recvmsg s.cps.sock_fd l.iov_off l.iov_len
      :: Event.realloc (16384 * (n0 + 1 + 1)) :: pre, post, ?_, ?_, ?_, ?_⟩
    · rw [htr]
      have e1 : n0 + 1 + fs.length + 1 = n0 + (fs.length + 1) + 1 := by omega
      have e2 : total0 + f.length + total_length fs = total0 + total_length (f :: fs) := by
        rw [total_length_cons]; omega
      simp only [Sys.emit, after_recvmsg, List.append_assoc, List.cons_append,
        List.nil_append, List.length_cons, e1, e2]
    · simpa [recv_calls] using hrc
    · have : alloc_sizes (Event.recvmsg s.cps.sock_fd l.iov_off l.iov_len
          :: Event.realloc (16384 * (n0 + 1 + 1)) :: pre)
          = 16384 * (n0 + 1 + 1) :: alloc_sizes pre := by
        simp [alloc_sizes]
      rw [this, hal]
      simp [List.range'_succ]
    · rw [total_length_cons]
      simp only [List.length_cons]
      omega

/-- The receive loop hands over no buffer only together with a result `<= 0`: a positive
result always comes with a buffer. -/
theorem recv_next_positive_has_buffer (t : Nat) :
    ∀ (inbox : List RecvOutcome) (l : RecvLocals) (s : Sys) (r : RecvResult) (s' : Sys),
      recv_next t inbox l s = some (r, s') → r.buff = none → r.ret ≤ 0 := by
  intro inbox
  induction inbox with
  | nil => intro l s r s' h; simp [recv_next] at h
  | cons o rest ih =>
    intro l s r s' h
    cases o with
    | error errno =>
      rw [recv_next_error] at h
      simp only [Option.some.injEq, Prod.mk.injEq] at h
      obtain ⟨rfl, -⟩ := h
      intro _
      show (-1 : Int) ≤ 0
      norm_num
    | data bytes trunc =>
      by_cases hpos : to_int bytes.length ≤ 0
      · rw [recv_next_nonpos _ _ _ _ _ _ hpos] at h
        simp only [Option.some.injEq, Prod.mk.injEq] at h
        obtain ⟨rfl, -⟩ := h
        intro _
        exact hpos
      · have hpos' : 0 < to_int bytes.length := not_le.mp hpos
        cases trunc with
        | false =>
          rw [recv_next_final _ _ _ _ _ hpos'] at h
          simp only [Option.some.injEq, Prod.mk.injEq] at h
          obtain ⟨rfl, -⟩ := h
          intro hb
          simp at hb
        | true =>
          rw [recv_next_trunc _ _ _ _ _ hpos'] at h
          split at h
          · simp at h
          · exact ih _ _ _ _ h

/-- A positive result of `colo_proxy_recv` comes with a buffer. -/
theorem recv_positive_has_buffer (env : Env) (s : Sys) (t : Nat) (r : RecvResult) (s' : Sys)
    (h : colo_proxy_recv env s t = some (r, s')) (hpos : 0 < r.ret) : ∃ b, r.buff = some b := by
  unfold colo_proxy_recv at h
  cases hb : r.buff with
  | none =>
    have := recv_next_positive_has_buffer t _ _ _ _ _ h hb
    omega
  | some b => exact ⟨b, rfl⟩

/-- The function `colo_proxy_checkpoint` never reads the header through `NULL`: it has a
result whenever `colo_proxy_recv` has one. -/
theorem checkpoint_reads_no_null (env : Env) (s : Sys) (t : Nat) (r : RecvResult) (s' : Sys)
    (h : colo_proxy_recv env s t = some (r, s')) :
    ∃ v s'', colo_proxy_checkpoint env s t = some (v, s'') := by
  by_cases hr : r.ret ≤ 0
  · exact ⟨0, s', by simp [colo_proxy_checkpoint, h, hr]⟩
  · obtain ⟨b, hb⟩ := recv_positive_has_buffer env s t r s' h (not_le.mp hr)
    by_cases h1 : b.nlmsg_type = NLMSG_ERROR
    · exact ⟨-1, s'.emit (Event.free true),
        by simp [colo_proxy_checkpoint, h, hr, hb, h1]⟩
    · by_cases h2 : b.nlmsg_len < NLMSG_LENGTH sizeof_colo_msg
      · exact ⟨-1, s'.emit (Event.free true),
          by simp [colo_proxy_checkpoint, h, hr, hb, h1, h2]⟩
      · exact ⟨bool_cond b.is_checkpoint, s'.emit (Event.free true),
          by simp [colo_proxy_checkpoint, h, hr, hb, h1, h2]⟩

/-- The handshake of `colo_proxy_setup` never reads the header through `NULL`: the value
of `ret` at `out:` is defined for whatever `colo_proxy_recv` hands back. -/
theorem ack_reads_no_null (env : Env) (s : Sys) (t : Nat) (r : RecvResult) (s' : Sys)
    (ret : Int) (h : colo_proxy_recv env s t = some (r, s')) :
    ∃ v, ack_ret ret r = some v := by
  by_cases h1 : r.ret < 0
  · exact ⟨ret, by simp [ack_ret, h1]⟩
  · by_cases h2 : r.ret = 0
    · exact ⟨0, by simp [ack_ret, h2]⟩
    · obtain ⟨b, hb⟩ := recv_positive_has_buffer env s t r s' h (by omega)
      unfold ack_ret
      simp only [h1, h2, hb, if_false, ne_eq, not_false_eq_true, if_true]
      split
      · split
        · exact ⟨_, rfl⟩
        · split <;> exact ⟨_, rfl⟩
      · exact ⟨_, rfl⟩

/-- The conditional on a `bool` hands the stored byte on. -/
theorem bool_cond_eq (x : Nat) : bool_cond x = x := by
  unfold bool_cond
  split_ifs with h1 h0
  · simp [h1]
  · simp [h0]
  · rfl

/-- Claim C1, as the code has it: whatever the errno of a failed `recvmsg` (the timeout
`EAGAIN`, but a hard error such as `EIO` just as well), `colo_proxy_checkpoint` returns 0;
the hard receive error is not reported as -1. -/
theorem checkpoint_hard_recv_error_returns_zero (env : Env) (s : Sys) (timeout_us errno : Nat)
    (rest : List RecvOutcome) :
    (colo_proxy_checkpoint env { s with inbox := RecvOutcome.error errno :: rest } timeout_us).map
      Prod.fst = some 0 := by
  obtain ⟨s', h⟩ := recv_error_head env s timeout_us errno rest
  simp [colo_proxy_checkpoint, h]

/-- Claim C2, as the code has it: with the candidates 1..9 in use and candidate 10 free,
`colo_proxy_setup` binds 1, 2, ..., 9 and gives up without a `bind` of candidate 10: it
returns -1 and closes the socket. -/
theorem setup_skips_candidate_ten (s : Sys) (ERROR_FAIL sendmsg_ret : Int) (heap : Nat → Nat) :
    (colo_proxy_setup
        { socket_ret := 3
          bind_result := fun k => if k = 10 then BindResult.success else BindResult.addr_in_use
          sendmsg_ret := sendmsg_ret
          heap := heap } ERROR_FAIL s).map (fun r => (r.1, r.2.cps.sock_fd, r.2.trace))
      = some (-1, -1, s.trace ++ [Event.socket 3, Event.bind 3 1, Event.bind 3 2, Event.bind 3 3,
          Event.bind 3 4, Event.bind 3 5, Event.bind 3 6, Event.bind 3 7, Event.bind 3 8,
          Event.bind 3 9, Event.free false, Event.close 3]) := by
  simp [colo_proxy_setup, bind_retry, setup_out, Sys.emit, to_uint]

/-- Claim C3, as the code has it: a frame of type `COLO_CHECKPOINT` of which 16 bytes
were received and whose length field says 17 is not rejected; `colo_proxy_checkpoint`
returns the byte that lies in the buffer behind the received bytes, read as the flag. -/
theorem checkpoint_reads_flag_past_received_bytes (env : Env) (s : Sys) (timeout_us : Nat)
    (rest : List RecvOutcome) :
    (colo_proxy_checkpoint env
        { s with inbox := RecvOutcome.data [17, 0, 0, 0, 18, 0, 0, 0, 0, 0, 0, 0, 0, 0, 0, 0] false
                            :: rest } timeout_us).map Prod.fst
      = some (env.heap 16 : Int) := by
  by_cases ht : timeout_us = 0 <;>
    simp [colo_proxy_checkpoint, colo_proxy_recv, recv_next, recv_out, Sys.emit, set_rcvtimeo, ht,
      to_int, Buffer.write, Buffer.nlmsg_type, Buffer.nlmsg_len, Buffer.le16, Buffer.le32,
      Buffer.is_checkpoint, bool_cond_eq, NLMSG_ERROR, NLMSG_LENGTH, NLMSG_HDRLEN, NLMSG_ALIGN,
      NLMSG_ALIGNTO, sizeof_nlmsghdr, sizeof_colo_msg]

/-- Claim C4, as the code has it: an acknowledgment of type `NLMSG_ERROR` of which 8
bytes were received is not rejected as too short (`size - sizeof(*h)` wraps as a
`size_t`); the error code is read from behind the received bytes, and when the memory
there is zero `colo_proxy_setup` returns 0 and keeps the socket. -/
theorem setup_accepts_short_error_ack (s : Sys) (ERROR_FAIL : Int) (heap : Nat → Nat)
    (rest : List RecvOutcome) :
    (colo_proxy_setup
        { socket_ret := 3, bind_result := fun _ => BindResult.success, sendmsg_ret := 16,
          heap := heap } ERROR_FAIL
        { s with inbox := RecvOutcome.data [8, 0, 0, 0, 2, 0, 0, 0] false :: rest }).map
      (fun r => (r.1, r.2.cps.sock_fd))
      = some (if heap 16 + 256 * heap 17 + 65536 * heap 18 + 16777216 * heap 19 ≠ 0
          then (16, -1) else (0, 3)) := by
  by_cases hh : heap 16 + 256 * heap 17 + 65536 * heap 18 + 16777216 * heap 19 = 0 <;>
    simp [colo_proxy_setup, bind_retry, setup_handshake, ack_ret, colo_proxy_send, setup_out,
      colo_proxy_recv, recv_next, recv_out, Sys.emit, set_rcvtimeo, hh, to_int, u32_to_int, to_uint,
      Buffer.write, Buffer.nlmsg_type, Buffer.nlmsgerr_error, Buffer.le16, Buffer.le32,
      NLMSG_ERROR, NLMSG_LENGTH, NLMSG_HDRLEN, NLMSG_ALIGN, NLMSG_ALIGNTO,
      sizeof_nlmsghdr, sizeof_nlmsgerr]

/-- Claim C5, amended: when the fragments are all nonempty, fewer than 2^18 - 1 of them
are flagged truncated and their total length is below 2^31, `colo_proxy_recv` returns the
total length and a buffer that starts with the concatenation of the fragments. -/
theorem recv_reassembles_fragments (env : Env) (s : Sys) (timeout_us : Nat)
    (frags : List (List Nat)) (last : List Nat) (rest : List RecvOutcome)
    (hinbox : s.inbox = fragment_answers frags last ++ rest)
    (_hfit : frags_fit 16384 0 (frags ++ [last]) = true)
    (hne : ∀ f ∈ frags ++ [last], f ≠ [])
    (hcount : frags.length < 2 ^ 18 - 1)
    (htotal : total_length (frags ++ [last]) < 2 ^ 31) :
    Reassembles env s timeout_us (frags ++ [last]) := by
  have hle : ∀ f ∈ frags ++ [last], f.length ≤ total_length (frags ++ [last]) := by
    intro f hf
    exact List.single_le_sum (by simp) _ (List.mem_map_of_mem _ hf)
  have hpos : ∀ f ∈ frags ++ [last], 0 < f.length := fun f hf =>
    List.length_pos.mpr (hne f hf)
  obtain ⟨s', h, -⟩ := recv_fragments env s timeout_us frags last rest hinbox
    (fun f hf => ⟨hpos f (by simp [hf]), lt_of_le_of_lt (hle f (by simp [hf])) htotal⟩)
    (hpos last (by simp)) (lt_of_le_of_lt (hle last (by simp)) htotal) hcount
  refine ⟨write_all env.heap 0 (frags ++ [last]), s', ?_, ?_⟩
  · rw [h, to_int_of_lt _ (by omega) (by exact_mod_cast htotal)]
  · have := firstBytes_write_all (frags ++ [last]) env.heap 0
    simpa [Buffer.firstBytes] using this

/-- The amended claim C5 on the two fragments `[1, 2]` (truncated) and `[3]`. -/
theorem recv_reassembles_fragments_witness :
    Reassembles env_ok (sys_with (fragment_answers [[1, 2]] [3])) 500000 ([[1, 2]] ++ [[3]]) :=
  recv_reassembles_fragments env_ok (sys_with (fragment_answers [[1, 2]] [3])) 500000
    [[1, 2]] [3] [] rfl (by decide) (by decide) (by decide) (by decide)

/-- Claim C5 as stated fails at three inputs that meet its conditions.  After the
truncated fragment `[1]` an empty last fragment makes `colo_proxy_recv` return 0 and no
buffer.  131072 full fragments of 16384 bytes add up to 2^31, which the `int` that carries
the result cannot hold.  And with 2^18 - 1 truncated fragments of one byte the 32-bit
`size` wraps to 0 and the buffer is given up. -/
theorem recv_reassembly_fails :
    (frags_fit 16384 0 ([[1]] ++ [[]]) = true ∧
      ¬ Reassembles env_ok (sys_with (fragment_answers [[1]] [])) 0 ([[1]] ++ [[]])) ∧
    (frags_fit 16384 0 (List.replicate 131071 full_fragment ++ [full_fragment]) = true ∧
      (∀ f ∈ List.replicate 131071 full_fragment ++ [full_fragment], f ≠ []) ∧
      ¬ Reassembles env_ok
          (sys_with (fragment_answers (List.replicate 131071 full_fragment) full_fragment)) 0
          (List.replicate 131071 full_fragment ++ [full_fragment])) ∧
    (frags_fit 16384 0 (List.replicate 262143 [1] ++ [[1]]) = true ∧
      (∀ f ∈ List.replicate 262143 [1] ++ [[1]], f ≠ []) ∧
      total_length (List.replicate 262143 [1] ++ [[1]]) < 2 ^ 31 ∧
      ¬ Reassembles env_ok (sys_with (fragment_answers (List.replicate 262143 [1]) [1])) 0
          (List.replicate 262143 [1] ++ [[1]])) := by
  refine ⟨⟨by decide, ?_⟩, ⟨frags_fit_full _ _ _ (by omega), ?_, ?_⟩,
    frags_fit_small _ _ _ (by omega), ?_, ?_, ?_⟩
  · rintro ⟨b, s', h, -⟩
    obtain ⟨s'', e⟩ := recv_small env_ok (sys_with []) []
    have e' : colo_proxy_recv env_ok (sys_with (fragment_answers [[1]] [])) 0
        = some ({ ret := 0, buff := none }, s'') := e
    rw [e'] at h
    simp at h
  · intro f hf
    have : f = full_fragment := by
      simp only [List.mem_append, List.mem_replicate, List.mem_singleton] at hf
      tauto
    rw [this]
    exact List.ne_nil_of_length_pos (by rw [full_fragment_length]; omega)
  · rintro ⟨b, s', h, -⟩
    obtain ⟨s'', h', -⟩ := recv_fragments env_ok
      (sys_with (fragment_answers (List.replicate 131071 full_fragment) full_fragment)) 0
      (List.replicate 131071 full_fragment) full_fragment []
      (by simp only [sys_with, List.append_nil])
      (by intro f hf; rw [List.eq_of_mem_replicate hf, full_fragment_length]; omega)
      (by rw [full_fragment_length]; omega) (by rw [full_fragment_length]; omega)
      (by rw [List.length_replicate]; omega)
    rw [h'] at h
    simp only [Option.some.injEq, Prod.mk.injEq, RecvResult.mk.injEq] at h
    have hr := h.1.1
    rw [total_length_full] at hr
    simp [to_int] at hr
  · intro f hf
    have : f = [1] := by
      simp only [List.mem_append, List.mem_replicate, List.mem_singleton] at hf
      tauto
    rw [this]
    exact List.cons_ne_nil _ _
  · rw [total_length_small]
    norm_num
  · rintro ⟨b, s', h, -⟩
    rw [recv_wraps_small 262143 (by norm_num)] at h
    exact Option.some_ne_none _ h.symm

/-- Claim C7, as the code has it: when `sendmsg` reports 0 bytes and the receive of the
acknowledgment times out, `colo_proxy_setup` returns 0, makes no `close` call and leaves
the descriptor in the session. -/
theorem setup_reports_success_after_zero_byte_send (s : Sys) (ERROR_FAIL : Int)
    (heap : Nat → Nat) (rest : List RecvOutcome) :
    (colo_proxy_setup
        { socket_ret := 3, bind_result := fun _ => BindResult.success, sendmsg_ret := 0,
          heap := heap } ERROR_FAIL
        { s with inbox := RecvOutcome.error EAGAIN :: rest }).map
      (fun r => (r.1, r.2.cps.sock_fd, r.2.trace))
      = some (0, 3, s.trace ++ [Event.socket 3, Event.bind 3 1,
          Event.sendmsg 3 { nlmsg_len := 16, nlmsg_type := 20, nlmsg_flags := 5, nlmsg_seq := 0,
                            nlmsg_pid := 1 },
          Event.malloc 16384, Event.setsockopt 3 0 500000, Event.recvmsg 3 0 16384,
          Event.free true, Event.setsockopt 3 0 0, Event.free false]) := by
  simp [colo_proxy_setup, bind_retry, setup_handshake, ack_ret, colo_proxy_send, setup_out,
      colo_proxy_recv, recv_next, recv_out, Sys.emit, set_rcvtimeo, to_int, u32_to_int, to_uint,
      request_header, colo_netlink_op.val, NLMSG_MIN_TYPE, NLMSG_SPACE, NLM_F_REQUEST, NLM_F_ACK,
      NLMSG_LENGTH, NLMSG_HDRLEN, NLMSG_ALIGN, NLMSG_ALIGNTO, sizeof_nlmsghdr]

/-- Claim C8: in every run of `colo_proxy_setup`, if a `bind` call succeeds, on
candidate `k`, then the `bind` calls made are exactly 1, 2, ..., k in this order, the
candidates before `k` were in use, `1 ≤ k ≤ 10` and the session index is `k`; and if a
`bind` call fails for another reason than address-in-use, on candidate `k`, then the
`bind` calls made are exactly 1, 2, ..., k and setup fails with the descriptor
invalidated. -/
theorem setup_binds_in_ascending_order (env : Env) (ERROR_FAIL : Int) (s : Sys) (ret : Int)
    (s' : Sys) (hrun : colo_proxy_setup env ERROR_FAIL s = some (ret, s')) :
    ∃ new, s'.trace = s.trace ++ new ∧
      (∀ k ∈ bind_calls new, env.bind_result k = BindResult.success →
        bind_calls new = List.range' 1 k ∧
        (∀ j, 1 ≤ j → j < k → env.bind_result j = BindResult.addr_in_use) ∧
        1 ≤ k ∧ k ≤ 10 ∧ s'.cps.index = k) ∧
      (∀ k ∈ bind_calls new, env.bind_result k = BindResult.other_error →
        bind_calls new = List.range' 1 k ∧
        (∀ j, 1 ≤ j → j < k → env.bind_result j = BindResult.addr_in_use) ∧
        ret ≠ 0 ∧ s'.cps.sock_fd = -1) := by
  by_cases hsock : env.socket_ret < 0
  · -- no socket: no `bind` call at all
    have h : some (setup_out ERROR_FAIL none (s.emit (Event.socket env.socket_ret)))
        = some (ret, s') := by
      simpa [colo_proxy_setup, hsock] using hrun
    have ht := (setup_out_spec ERROR_FAIL none (s.emit (Event.socket env.socket_ret))).2.2.2
    rw [Option.some.inj h] at ht
    refine ⟨Event.socket env.socket_ret :: Event.free false ::
      (if ERROR_FAIL ≠ 0 then [Event.close s.cps.sock_fd] else []),
      by simpa [Sys.emit] using ht, ?_, ?_⟩ <;>
    · intro k hk
      by_cases he : ERROR_FAIL = 0 <;> simp [bind_calls, he] at hk
  · obtain ⟨n, hn9, huse, hcase⟩ := setup_cases env ERROR_FAIL s (not_lt.mp hsock)
    -- the `bind` calls are exactly 1..n whenever the rest of the trace has none
    have hmem : ∀ k, k ∈ List.range' 1 n →
        ∀ r, env.bind_result k = r → r ≠ BindResult.addr_in_use → k = n := by
      intro k hk r hr hne
      have hk' := List.mem_range'_1.mp hk
      by_contra hkn
      exact hne (hr ▸ huse k hk'.1 (by omega))
    rcases hcase with ⟨h1, hsucc, heq⟩ | ⟨hfail, heq⟩
    · rw [heq] at hrun
      obtain ⟨hidx, -, mid, htr, hall⟩ := setup_handshake_frame env n _ ret s' hrun
      have hb : bind_calls (Event.socket env.socket_ret ::
            (List.range' 1 n).map (Event.bind env.socket_ret)
          ++ ([Event.sendmsg env.socket_ret
                (request_header { sock_fd := env.socket_ret, index := u32_to_int n }
                  colo_netlink_op.COLO_PROXY_INIT.val)] ++ mid
              ++ (if ret ≠ 0 then [Event.close env.socket_ret] else [])))
          = List.range' 1 n := by
        rw [bind_calls_append, bind_calls_append, bind_calls_append,
          bind_calls_recv_events mid hall]
        have e1 : bind_calls (Event.socket env.socket_ret ::
            (List.range' 1 n).map (Event.bind env.socket_ret)) = List.range' 1 n := by
          have := bind_calls_binds env.socket_ret (List.range' 1 n)
          simpa [bind_calls] using this
        rw [e1]
        by_cases hr : ret = 0 <;> simp [bind_calls, hr]
      refine ⟨Event.socket env.socket_ret ::
            (List.range' 1 n).map (Event.bind env.socket_ret)
          ++ ([Event.sendmsg env.socket_ret
                (request_header { sock_fd := env.socket_ret, index := u32_to_int n }
                  colo_netlink_op.COLO_PROXY_INIT.val)] ++ mid
              ++ (if ret ≠ 0 then [Event.close env.socket_ret] else [])), ?_, ?_, ?_⟩
      · rw [htr]
        simp only [after_init_send, after_bind, List.append_assoc, List.cons_append]
      · intro k hk hks
        rw [hb] at hk
        have hkn := hmem k hk _ hks (by simp)
        subst hkn
        refine ⟨hb, huse, h1, by omega, ?_⟩
        rw [hidx, u32_to_int_of_lt _ (by omega)]
      · intro k hk hke
        rw [hb] at hk
        have hkn := hmem k hk _ hke (by simp)
        subst hkn
        rw [hsucc] at hke
        exact absurd hke (by simp)
    · rw [heq] at hrun
      have ho := setup_out_spec (-1) none (after_bind env s (s.trace ++
        Event.socket env.socket_ret :: (List.range' 1 n).map (Event.bind env.socket_ret)))
      rw [Option.some.inj hrun] at ho
      obtain ⟨o1, -, o3, o4⟩ := ho
      simp only at o1 o3 o4
      have hb : bind_calls (Event.socket env.socket_ret ::
            (List.range' 1 n).map (Event.bind env.socket_ret)
          ++ [Event.free false, Event.close env.socket_ret]) = List.range' 1 n := by
        rw [bind_calls_append]
        have := bind_calls_binds env.socket_ret (List.range' 1 n)
        simpa [bind_calls] using this
      refine ⟨Event.socket env.socket_ret ::
            (List.range' 1 n).map (Event.bind env.socket_ret)
          ++ [Event.free false, Event.close env.socket_ret], ?_, ?_, ?_⟩
      · rw [o4]
        simp [after_bind]
      · intro k hk hks
        rw [hb] at hk
        have hkn := hmem k hk _ hks (by simp)
        subst hkn
        rcases hfail with ⟨-, hf⟩ | ⟨h9, hf⟩
        · rw [hf] at hks; exact absurd hks (by simp)
        · subst h9; rw [hf] at hks; exact absurd hks (by simp)
      · intro k hk hke
        rw [hb] at hk
        have hkn := hmem k hk _ hke (by simp)
        subst hkn
        refine ⟨hb, huse, by omega, ?_⟩
        rw [o3]; rfl

/-- Claim C8 with candidate 1 in use and candidate 2 free: the index is 2; and with
candidate 2 failing otherwise: setup fails after the `bind` calls 1, 2. -/
theorem setup_binds_in_ascending_order_witness :
    (∃ ret s', colo_proxy_setup env_one_in_use (-3) (sys_with [RecvOutcome.data ack_ok false])
        = some (ret, s') ∧
      bind_calls s'.trace = List.range' 1 2 ∧ s'.cps.index = 2) ∧
    (∃ ret s', colo_proxy_setup env_second_fails (-3) (sys_with []) = some (ret, s') ∧
      bind_calls s'.trace = List.range' 1 2 ∧ ret ≠ 0 ∧ s'.cps.sock_fd = -1) := by
  constructor
  · refine ⟨_, _, rfl, ?_⟩
    obtain ⟨new, htr, hsucc, -⟩ := setup_binds_in_ascending_order env_one_in_use (-3)
      (sys_with [RecvOutcome.data ack_ok false]) _ _ rfl
    have hnew : new = [Event.socket 3, Event.bind 3 1, Event.bind 3 2,
        Event.sendmsg 3 { nlmsg_len := 16, nlmsg_type := 20, nlmsg_flags := 5, nlmsg_seq := 0,
                          nlmsg_pid := 2 },
        Event.malloc 16384, Event.setsockopt 3 0 500000, Event.recvmsg 3 0 16384,
        Event.setsockopt 3 0 0, Event.free true] := by
      simpa [sys_with] using htr.symm
    subst hnew
    have h := hsucc 2 (by decide) (by decide)
    exact ⟨h.1, h.2.2.2.2⟩
  · refine ⟨_, _, rfl, ?_⟩
    obtain ⟨new, htr, -, hfail⟩ := setup_binds_in_ascending_order env_second_fails (-3)
      (sys_with []) _ _ rfl
    have hnew : new = [Event.socket 3, Event.bind 3 1, Event.bind 3 2, Event.free false,
        Event.close 3] := by
      simpa [sys_with] using htr.symm
    subst hnew
    have h := hfail 2 (by decide) (by decide)
    exact ⟨h.1, h.2.2⟩

/-- Claim C9: whenever `colo_proxy_recv` returns, with a nonzero `timeout_us` the
`setsockopt` that installs `(timeout_us / 1000000, timeout_us % 1000000)` comes before
the first `recvmsg`, the last call is the `setsockopt` that resets the timeout, and the
timeout of the socket is zero; with `timeout_us = 0` no `setsockopt` is made and the
timeout of the socket is what it was. -/
theorem recv_scopes_timeout (env : Env) (s : Sys) (timeout_us : Nat) (r : RecvResult)
    (s' : Sys) (hrun : colo_proxy_recv env s timeout_us = some (r, s')) :
    (timeout_us ≠ 0 →
      s'.rcvtimeo = (0, 0) ∧
      ∃ mid, s'.trace = s.trace ++
          [Event.malloc 16384,
           Event.setsockopt s.cps.sock_fd (timeout_us / 1000000) (timeout_us % 1000000),
           Event.recvmsg s.cps.sock_fd 0 16384] ++ mid ++ [Event.setsockopt s.cps.sock_fd 0 0] ∧
        ∀ e ∈ mid, e.is_recv_step = true) ∧
    (timeout_us = 0 →
      s'.rcvtimeo = s.rcvtimeo ∧
      ∃ mid, s'.trace = s.trace ++
          [Event.malloc 16384, Event.recvmsg s.cps.sock_fd 0 16384] ++ mid ∧
        ∀ e ∈ mid, e.is_recv_step = true) := by
  obtain ⟨-, hr, mid, hmid, hall⟩ := recv_frame env s timeout_us r s' hrun
  constructor
  · intro ht
    exact ⟨by simpa [ht] using hr, mid, by simpa [ht] using hmid, hall⟩
  · intro ht
    exact ⟨by simpa [ht] using hr, mid, by simpa [ht] using hmid, hall⟩

/-- Claim C9 on the four ways out with a timeout of 1.5 s (complete message, timeout,
hard error, failure after a truncated fragment) and on a call without timeout. -/
theorem recv_scopes_timeout_witness :
    (∃ r s', colo_proxy_recv env_ok (sys_timed [RecvOutcome.data [1, 2, 3] false]) 1500000
          = some (r, s') ∧ s'.rcvtimeo = (0, 0)) ∧
    (∃ r s', colo_proxy_recv env_ok (sys_timed [RecvOutcome.error EAGAIN]) 1500000
          = some (r, s') ∧ s'.rcvtimeo = (0, 0)) ∧
    (∃ r s', colo_proxy_recv env_ok (sys_timed [RecvOutcome.error EIO]) 1500000
          = some (r, s') ∧ s'.rcvtimeo = (0, 0)) ∧
    (∃ r s', colo_proxy_recv env_ok
          (sys_timed [RecvOutcome.data [1] true, RecvOutcome.error EIO]) 1500000
          = some (r, s') ∧ s'.rcvtimeo = (0, 0)) ∧
    (∃ r s', colo_proxy_recv env_ok (sys_timed [RecvOutcome.error EAGAIN]) 0
          = some (r, s') ∧ s'.rcvtimeo = (9, 9)) :=
  ⟨⟨_, _, rfl, ((recv_scopes_timeout env_ok (sys_timed [RecvOutcome.data [1, 2, 3] false])
      1500000 _ _ rfl).1 (by decide)).1⟩,
   ⟨_, _, rfl, ((recv_scopes_timeout env_ok (sys_timed [RecvOutcome.error EAGAIN])
      1500000 _ _ rfl).1 (by decide)).1⟩,
   ⟨_, _, rfl, ((recv_scopes_timeout env_ok (sys_timed [RecvOutcome.error EIO])
      1500000 _ _ rfl).1 (by decide)).1⟩,
   ⟨_, _, rfl, ((recv_scopes_timeout env_ok
      (sys_timed [RecvOutcome.data [1] true, RecvOutcome.error EIO])
      1500000 _ _ rfl).1 (by decide)).1⟩,
   ⟨_, _, rfl, ((recv_scopes_timeout env_ok (sys_timed [RecvOutcome.error EAGAIN])
      0 _ _ rfl).2 rfl).1⟩⟩

/-- Claim C10: for every operation and every session index that fits the 32-bit field,
the frame `colo_proxy_send` sends has length = header size, sequence 0, the session index
in the pid field, the operation as type, and the flags `NLM_F_REQUEST | NLM_F_ACK` for
`COLO_PROXY_INIT` and `NLM_F_REQUEST` alone for every other operation; the request of
`colo_proxy_preresume` is of type `COLO_CHECKPOINT` with `NLM_F_REQUEST` alone. -/
theorem send_builds_header_only_request (env : Env) (s : Sys) (op : colo_netlink_op)
    (hlo : 0 ≤ s.cps.index) (hhi : s.cps.index < 2 ^ 32) :
    (∃ msg : nlmsghdr,
      (colo_proxy_send env s op.val).2.trace = s.trace ++ [Event.sendmsg s.cps.sock_fd msg] ∧
      msg.nlmsg_len = sizeof_nlmsghdr ∧
      msg.nlmsg_seq = 0 ∧
      (msg.nlmsg_pid : Int) = s.cps.index ∧
      (msg.nlmsg_type : Int) = op.val ∧
      msg.nlmsg_flags =
        (if op = colo_netlink_op.COLO_PROXY_INIT then NLM_F_REQUEST ||| NLM_F_ACK
         else NLM_F_REQUEST)) ∧
    (∃ msg : nlmsghdr,
      (colo_proxy_preresume env s).trace = s.trace ++ [Event.sendmsg s.cps.sock_fd msg] ∧
      (msg.nlmsg_type : Int) = colo_netlink_op.COLO_CHECKPOINT.val ∧
      msg.nlmsg_flags = NLM_F_REQUEST) := by
  have hpid : ((to_uint 32 s.cps.index : Nat) : Int) = s.cps.index := by
    unfold to_uint
    omega
  refine ⟨⟨request_header s.cps op.val, rfl, ?_, rfl, ?_, ?_, ?_⟩,
    ⟨request_header s.cps colo_netlink_op.COLO_CHECKPOINT.val, rfl, ?_, ?_⟩⟩
  · rfl
  · exact hpid
  · cases op <;> rfl
  · cases op <;> rfl
  · rfl
  · rfl

/-- Claim C10 on the init request of the session with index 2. -/
theorem send_builds_header_only_request_witness :
    (∃ msg : nlmsghdr,
      (colo_proxy_send ⟨3, fun _ => BindResult.success, 16, fun _ => 0⟩
        ⟨⟨3, 2⟩, (0, 0), [], []⟩ colo_netlink_op.COLO_PROXY_INIT.val).2.trace
          = [] ++ [Event.sendmsg 3 msg] ∧
      msg.nlmsg_len = sizeof_nlmsghdr ∧
      msg.nlmsg_seq = 0 ∧
      (msg.nlmsg_pid : Int) = 2 ∧
      (msg.nlmsg_type : Int) = colo_netlink_op.COLO_PROXY_INIT.val ∧
      msg.nlmsg_flags =
        (if colo_netlink_op.COLO_PROXY_INIT = colo_netlink_op.COLO_PROXY_INIT
         then NLM_F_REQUEST ||| NLM_F_ACK else NLM_F_REQUEST)) ∧
    (∃ msg : nlmsghdr,
      (colo_proxy_preresume ⟨3, fun _ => BindResult.success, 16, fun _ => 0⟩
        ⟨⟨3, 2⟩, (0, 0), [], []⟩).trace = [] ++ [Event.sendmsg 3 msg] ∧
      (msg.nlmsg_type : Int) = colo_netlink_op.COLO_CHECKPOINT.val ∧
      msg.nlmsg_flags = NLM_F_REQUEST) :=
  send_builds_header_only_request ⟨3, fun _ => BindResult.success, 16, fun _ => 0⟩
    ⟨⟨3, 2⟩, (0, 0), [], []⟩ colo_netlink_op.COLO_PROXY_INIT (by decide) (by decide)

/-- Claim C11: `colo_proxy_teardown` on a session with an open handle makes the one call
`close` on it and sets the handle to -1, leaving the rest of the session as it is; on a
session whose handle is closed (negative) it changes nothing and makes no call; so a second
teardown changes nothing, and two teardowns make the same `close` calls as one. -/
theorem teardown_idempotent (s : Sys) :
    (0 ≤ s.cps.sock_fd →
      colo_proxy_teardown s
        = { s with cps := { s.cps with sock_fd := -1 }
                   trace := s.trace ++ [Event.close s.cps.sock_fd] }) ∧
    (s.cps.sock_fd < 0 → colo_proxy_teardown s = s) ∧
    colo_proxy_teardown (colo_proxy_teardown s) = colo_proxy_teardown s ∧
    close_calls (colo_proxy_teardown (colo_proxy_teardown s)).trace
      = close_calls (colo_proxy_teardown s).trace := by
  have hopen : 0 ≤ s.cps.sock_fd →
      colo_proxy_teardown s
        = { s with cps := { s.cps with sock_fd := -1 }
                   trace := s.trace ++ [Event.close s.cps.sock_fd] } := by
    intro h
    simp [colo_proxy_teardown, Sys.emit, h]
  have hclosed : ∀ s0 : Sys, s0.cps.sock_fd < 0 → colo_proxy_teardown s0 = s0 := by
    intro s0 h
    simp [colo_proxy_teardown, not_le.mpr h]
  have htwice : colo_proxy_teardown (colo_proxy_teardown s) = colo_proxy_teardown s := by
    by_cases h : 0 ≤ s.cps.sock_fd
    · rw [hopen h]
      exact hclosed _ (by show (-1 : Int) < 0; decide)
    · rw [hclosed s (not_le.mp h), hclosed s (not_le.mp h)]
  exact ⟨hopen, hclosed s, htwice, by rw [htwice]⟩

/-- Claim C11 on a session that holds descriptor 5: the first teardown closes 5, the
second leaves the state and the single `close` as they are. -/
theorem teardown_idempotent_witness :
    (colo_proxy_teardown sys_open).cps.sock_fd = -1 ∧
    close_calls (colo_proxy_teardown sys_open).trace = [5] ∧
    colo_proxy_teardown (colo_proxy_teardown sys_open) = colo_proxy_teardown sys_open ∧
    close_calls (colo_proxy_teardown (colo_proxy_teardown sys_open)).trace = [5] := by
  have h := teardown_idempotent sys_open
  have h1 := h.1 (by decide)
  refine ⟨by rw [h1], by rw [h1]; rfl, h.2.2.1, by rw [h.2.2.2, h1]; rfl⟩

/-- Claim C12: in every run of `colo_proxy_setup` in which a `bind` call succeeded, on
candidate `k`, the send of the init request did not fail, and the acknowledgment handed
over by `colo_proxy_recv` is clean (nothing received, or an `NLMSG_ERROR` frame of
sufficient length with error code 0, or a frame of another type), setup returns 0, makes
no `close` call, keeps the descriptor of this call in the session and records the index
`k`. -/
theorem setup_succeeds_on_clean_handshake (env : Env) (ERROR_FAIL : Int) (s : Sys)
    (ret : Int) (s' : Sys) (new : List Event) (k : Nat) (r : RecvResult) (s2 : Sys)
    (hrun : colo_proxy_setup env ERROR_FAIL s = some (ret, s'))
    (hnew : s'.trace = s.trace ++ new)
    (hk : k ∈ bind_calls new) (hbind : env.bind_result k = BindResult.success)
    (hsend : 0 ≤ env.sendmsg_ret)
    (hrecv : colo_proxy_recv env (handshake_state env s k) 500000 = some (r, s2))
    (hack : clean_ack r) :
    ret = 0 ∧ close_calls new = [] ∧ s'.cps.sock_fd = env.socket_ret ∧ s'.cps.index = k := by
  by_cases hsock : env.socket_ret < 0
  · -- no socket: no `bind` call at all
    exfalso
    have h : some (setup_out ERROR_FAIL none (s.emit (Event.socket env.socket_ret)))
        = some (ret, s') := by
      simpa [colo_proxy_setup, hsock] using hrun
    have ht := (setup_out_spec ERROR_FAIL none (s.emit (Event.socket env.socket_ret))).2.2.2
    rw [Option.some.inj h, hnew] at ht
    have hn : new = Event.socket env.socket_ret :: Event.free false ::
        (if ERROR_FAIL ≠ 0 then [Event.close s.cps.sock_fd] else []) := by
      simpa [Sys.emit] using ht
    rw [hn] at hk
    by_cases he : ERROR_FAIL = 0 <;> simp [bind_calls, he] at hk
  · obtain ⟨n, hn9, huse, hcase⟩ := setup_cases env ERROR_FAIL s (not_lt.mp hsock)
    have hmem : k ∈ List.range' 1 n → k = n := by
      intro hkr
      have hk' := List.mem_range'_1.mp hkr
      by_contra hkn
      have := huse k hk'.1 (by omega)
      rw [hbind] at this
      exact absurd this (by simp)
    rcases hcase with ⟨h1, hsucc, heq⟩ | ⟨hfail, heq⟩
    · rw [heq] at hrun
      obtain ⟨hidx, hfd, mid, htr, hall⟩ := setup_handshake_frame env n _ ret s' hrun
      rw [hnew] at htr
      have hn : new = Event.socket env.socket_ret ::
            (List.range' 1 n).map (Event.bind env.socket_ret)
          ++ ([Event.sendmsg env.socket_ret
                (request_header { sock_fd := env.socket_ret, index := u32_to_int n }
                  colo_netlink_op.COLO_PROXY_INIT.val)] ++ mid
              ++ (if ret ≠ 0 then [Event.close env.socket_ret] else [])) := by
        simpa [after_init_send, after_bind] using htr
      have hb : bind_calls new = List.range' 1 n := by
        rw [hn, bind_calls_append, bind_calls_append, bind_calls_append,
          bind_calls_recv_events mid hall]
        have e1 : bind_calls (Event.socket env.socket_ret ::
            (List.range' 1 n).map (Event.bind env.socket_ret)) = List.range' 1 n := by
          have := bind_calls_binds env.socket_ret (List.range' 1 n)
          simpa [bind_calls] using this
        rw [e1]
        by_cases hr : ret = 0 <;> simp [bind_calls, hr]
      rw [hb] at hk
      have hkn := hmem hk
      subst hkn
      -- the handshake ends in `out` with `ret = 0`
      have hret : ret = 0 := by
        rw [setup_handshake_eq, if_neg (not_lt.mpr hsend)] at hrun
        have hrecv' : colo_proxy_recv env (after_init_send k (after_bind env s (s.trace ++
            Event.socket env.socket_ret :: (List.range' 1 k).map (Event.bind env.socket_ret))))
            500000 = some (r, s2) := hrecv
        rw [hrecv'] at hrun
        simp only [ack_ret_clean env.sendmsg_ret r
          (recv_ret_range _ _ _ _ _ hrecv).2 hack] at hrun
        have := (setup_out_spec 0 r.buff s2).1
        rw [Option.some.inj hrun] at this
        exact this
      refine ⟨hret, ?_, ?_, ?_⟩
      · rw [hn, close_calls_append, close_calls_append, close_calls_append,
          close_calls_recv_events mid hall]
        have e1 : close_calls (Event.socket env.socket_ret ::
            (List.range' 1 k).map (Event.bind env.socket_ret)) = [] := by
          simp [close_calls]
        rw [e1]
        simp [close_calls, hret]
      · rw [hfd, if_neg (by simp [hret])]
        rfl
      · rw [hidx, u32_to_int_of_lt _ (by omega)]
    · exfalso
      rw [heq] at hrun
      have ho := (setup_out_spec (-1) none (after_bind env s (s.trace ++
        Event.socket env.socket_ret :: (List.range' 1 n).map (Event.bind env.socket_ret)))).2.2.2
      rw [Option.some.inj hrun, hnew] at ho
      have hn : new = Event.socket env.socket_ret ::
            (List.range' 1 n).map (Event.bind env.socket_ret)
          ++ [Event.free false, Event.close env.socket_ret] := by
        simpa [after_bind] using ho
      have hb : bind_calls new = List.range' 1 n := by
        rw [hn, bind_calls_append]
        have := bind_calls_binds env.socket_ret (List.range' 1 n)
        simpa [bind_calls] using this
      rw [hb] at hk
      have hkn := hmem hk
      subst hkn
      rcases hfail with ⟨-, hf⟩ | ⟨h9, hf⟩
      · rw [hf] at hbind; exact absurd hbind (by simp)
      · subst h9; rw [hf] at hbind; exact absurd hbind (by simp)

/-- Claim C12 with candidate 1 in use and candidate 2 free: on the acknowledgment with
error code 0, and on an empty receive, setup returns 0 with descriptor 3 kept and
index 2. -/
theorem setup_succeeds_on_clean_handshake_witness :
    (∃ ret s', colo_proxy_setup env_one_in_use (-3) (sys_with [RecvOutcome.data ack_ok false])
        = some (ret, s') ∧
      ret = 0 ∧ close_calls s'.trace = [] ∧ s'.cps.sock_fd = 3 ∧ s'.cps.index = 2) ∧
    (∃ ret s', colo_proxy_setup env_one_in_use (-3) (sys_with [RecvOutcome.data [] false])
        = some (ret, s') ∧
      ret = 0 ∧ close_calls s'.trace = [] ∧ s'.cps.sock_fd = 3 ∧ s'.cps.index = 2) := by
  constructor
  · refine ⟨_, _, rfl, ?_⟩
    exact setup_succeeds_on_clean_handshake env_one_in_use (-3)
      (sys_with [RecvOutcome.data ack_ok false]) _ _ _ 2 _ _ rfl rfl (by decide) (by decide)
      (by decide) rfl (Or.inr (Or.inr ⟨_, rfl, by decide, by decide, by decide⟩))
  · refine ⟨_, _, rfl, ?_⟩
    exact setup_succeeds_on_clean_handshake env_one_in_use (-3)
      (sys_with [RecvOutcome.data [] false]) _ _ _ 2 _ _ rfl rfl (by decide) (by decide)
      (by decide) rfl (Or.inl rfl)

/-- Claim C13, as the code has it: when `socket` fails, `colo_proxy_setup` returns
`ERROR_FAIL` and, `ERROR_FAIL` being nonzero, runs the cleanup of `out:` on the descriptor
the session held before the call: it calls `close` on it and sets the handle to -1. -/
theorem setup_closes_stale_descriptor (s : Sys) (ERROR_FAIL sendmsg_ret : Int)
    (bind_result : Nat → BindResult) (heap : Nat → Nat) :
    (colo_proxy_setup
        { socket_ret := -1, bind_result := bind_result, sendmsg_ret := sendmsg_ret,
          heap := heap } ERROR_FAIL s).map (fun r => (r.1, r.2.cps.sock_fd, r.2.trace))
      = some (ERROR_FAIL,
          if ERROR_FAIL ≠ 0 then -1 else s.cps.sock_fd,
          s.trace ++ [Event.socket (-1), Event.free false]
            ++ (if ERROR_FAIL ≠ 0 then [Event.close s.cps.sock_fd] else [])) := by
  by_cases h : ERROR_FAIL = 0 <;> simp [colo_proxy_setup, setup_out, Sys.emit, h]

/-- Claim C14: in a run of `colo_proxy_recv` that has received the truncated fragments
`frags` so far, each with a positive count and no longer than the capacity offered to it,
fewer than 2^18 - 1 of them, the next `recvmsg` call is made at the write offset equal to
the total of their lengths, the capacities the buffer has had are 16384, 2 * 16384, ...
up to 16384 * (number of fragments + 1) now, and the capacity offered is the difference
of the two, at least 16384, so that offset + offered capacity is the capacity. -/
theorem recv_loop_invariant (env : Env) (s : Sys) (timeout_us : Nat)
    (frags : List (List Nat)) (rest : List RecvOutcome) (r : RecvResult) (s' : Sys)
    (new : List Event)
    (hinbox : s.inbox = frags.map (fun f => RecvOutcome.data f true) ++ rest)
    (hrun : colo_proxy_recv env s timeout_us = some (r, s'))
    (hnew : s'.trace = s.trace ++ new)
    (hpos : ∀ f ∈ frags, 0 < to_int f.length)
    (hfit : frags_fit 16384 0 frags = true)
    (hcount : frags.length < 2 ^ 18 - 1) :
    ∃ pre post,
      new = pre ++ Event.recvmsg s.cps.sock_fd (total_length frags : Nat)
          (16384 * (frags.length + 1) - total_length frags) :: post ∧
      (recv_calls pre).length = frags.length ∧
      alloc_sizes pre = (List.range' 1 (frags.length + 1)).map (fun j => 16384 * j) ∧
      16384 ≤ 16384 * (frags.length + 1) - total_length frags ∧
      total_length frags + (16384 * (frags.length + 1) - total_length frags)
        = 16384 * (frags.length + 1) := by
  have key : ∀ s0 : Sys, s0.inbox = s.inbox → s0.cps = s.cps →
      recv_next timeout_us s0.inbox
        { size := 16384, len := 0, iov_off := 0, iov_len := 16384, tmp := env.heap } s0
        = some (r, s') →
      ∃ pre post, s'.trace = s0.trace ++ pre ++
            Event.recvmsg s.cps.sock_fd (total_length frags : Nat)
              (16384 * (frags.length + 1) - total_length frags) :: post ∧
        (recv_calls pre).length = frags.length ∧
        alloc_sizes pre = (List.range' 2 frags.length).map (fun j => 16384 * j) ∧
        total_length frags ≤ 16384 * frags.length := by
    intro s0 hin hcps h
    rw [hin, hinbox] at h
    obtain ⟨pre, post, htr, hrc, hal, htot⟩ := recv_next_invariant timeout_us frags rest _ s0
      r s' 0 0 h hpos hfit rfl rfl rfl rfl (le_refl _) (by omega)
    refine ⟨pre, post, ?_, hrc, hal, by simpa using htot⟩
    rw [htr, hcps]
    simp
  have hrange : (List.range' 1 (frags.length + 1)).map (fun j => 16384 * j)
      = 16384 :: (List.range' 2 frags.length).map (fun j => 16384 * j) := by
    simp [List.range'_succ]
  by_cases ht : timeout_us = 0
  · simp only [colo_proxy_recv, ht, ne_eq, not_true_eq_false, if_false] at hrun
    obtain ⟨pre, post, htr, hrc, hal, htot⟩ := key (s.emit (Event.malloc 16384)) rfl rfl
      (by simpa [ht] using hrun)
    rw [hnew] at htr
    refine ⟨Event.malloc 16384 :: pre, post, ?_, ?_, ?_, by omega, by omega⟩
    · simpa [Sys.emit] using htr
    · simpa [recv_calls] using hrc
    · rw [hrange, ← hal]
      simp [alloc_sizes]
  · simp only [colo_proxy_recv, ht, ne_eq, not_false_eq_true, if_true] at hrun
    obtain ⟨pre, post, htr, hrc, hal, htot⟩ := key
      (set_rcvtimeo (s.emit (Event.malloc 16384)) (timeout_us / 1000000)
        (timeout_us % 1000000)) rfl rfl hrun
    rw [hnew] at htr
    refine ⟨Event.malloc 16384 :: Event.setsockopt s.cps.sock_fd (timeout_us / 1000000)
      (timeout_us % 1000000) :: pre, post, ?_, ?_, ?_, by omega, by omega⟩
    · simpa [Sys.emit, set_rcvtimeo] using htr
    · simpa [recv_calls] using hrc
    · rw [hrange, ← hal]
      simp [alloc_sizes]

/-- Claim C14 on the three receive calls of a run with the truncated fragments `[1, 2]`
and `[3]`: offsets 0, 2, 3 in buffers of 16384, 32768, 49152 bytes. -/
theorem recv_loop_invariant_witness :
    (∃ pre post,
      trace_two_fragments = pre ++ Event.recvmsg 3 (total_length [] : Nat)
          (16384 * (([] : List (List Nat)).length + 1) - total_length []) :: post ∧
      (recv_calls pre).length = ([] : List (List Nat)).length ∧
      alloc_sizes pre
        = (List.range' 1 (([] : List (List Nat)).length + 1)).map (fun j => 16384 * j) ∧
      16384 ≤ 16384 * (([] : List (List Nat)).length + 1) - total_length [] ∧
      total_length [] + (16384 * (([] : List (List Nat)).length + 1) - total_length [])
        = 16384 * (([] : List (List Nat)).length + 1)) ∧
    (∃ pre post,
      trace_two_fragments = pre ++ Event.recvmsg 3 (total_length [[1, 2]] : Nat)
          (16384 * ([[1, 2]].length + 1) - total_length [[1, 2]]) :: post ∧
      (recv_calls pre).length = [[1, 2]].length ∧
      alloc_sizes pre = (List.range' 1 ([[1, 2]].length + 1)).map (fun j => 16384 * j) ∧
      16384 ≤ 16384 * ([[1, 2]].length + 1) - total_length [[1, 2]] ∧
      total_length [[1, 2]] + (16384 * ([[1, 2]].length + 1) - total_length [[1, 2]])
        = 16384 * ([[1, 2]].length + 1)) ∧
    (∃ pre post,
      trace_two_fragments = pre ++ Event.recvmsg 3 (total_length [[1, 2], [3]] : Nat)
          (16384 * ([[1, 2], [3]].length + 1) - total_length [[1, 2], [3]]) :: post ∧
      (recv_calls pre).length = [[1, 2], [3]].length ∧
      alloc_sizes pre
        = (List.range' 1 ([[1, 2], [3]].length + 1)).map (fun j => 16384 * j) ∧
      16384 ≤ 16384 * ([[1, 2], [3]].length + 1) - total_length [[1, 2], [3]] ∧
      total_length [[1, 2], [3]]
          + (16384 * ([[1, 2], [3]].length + 1) - total_length [[1, 2], [3]])
        = 16384 * ([[1, 2], [3]].length + 1)) :=
  ⟨recv_loop_invariant env_ok (sys_with inbox_two_fragments) 0 [] inbox_two_fragments
      _ _ trace_two_fragments rfl rfl rfl (by decide) (by decide) (by decide),
   recv_loop_invariant env_ok (sys_with inbox_two_fragments) 0 [[1, 2]]
      [RecvOutcome.data [3] true, RecvOutcome.error EIO]
      _ _ trace_two_fragments rfl rfl rfl (by decide) (by decide) (by decide),
   recv_loop_invariant env_ok (sys_with inbox_two_fragments) 0 [[1, 2], [3]]
      [RecvOutcome.error EIO]
      _ _ trace_two_fragments rfl rfl rfl (by decide) (by decide) (by decide)⟩

/-- Claim C15, as the code has it: after 131071 truncated fragments of 16384 bytes and a
last one of 16384 bytes, 2^31 bytes in all, `colo_proxy_recv` hands over the buffer
(non-`NULL`) with the result -2147483648, since the length goes through the `int ret`;
`colo_proxy_checkpoint` then takes the message for a timeout and returns 0. -/
theorem recv_negative_length_with_buffer :
    (colo_proxy_recv env_ok
        (sys_with (fragment_answers (List.replicate 131071 full_fragment) full_fragment))
        0).map (fun p => (p.1.ret, p.1.buff.isSome)) = some (-2147483648, true) ∧
    (colo_proxy_checkpoint env_ok
        (sys_with (fragment_answers (List.replicate 131071 full_fragment) full_fragment))
        0).map Prod.fst = some 0 := by
  obtain ⟨s', h, -⟩ := recv_fragments env_ok
    (sys_with (fragment_answers (List.replicate 131071 full_fragment) full_fragment)) 0
    (List.replicate 131071 full_fragment) full_fragment []
    (by simp only [sys_with, List.append_nil])
    (by intro f hf; rw [List.eq_of_mem_replicate hf, full_fragment_length]; omega)
    (by rw [full_fragment_length]; omega) (by rw [full_fragment_length]; omega)
    (by rw [List.length_replicate]; omega)
  rw [to_int_total_full] at h
  constructor
  · rw [h]
    rfl
  · exact checkpoint_of_recv_nonpos _ _ _ _ _ h (by show (-2147483648 : Int) ≤ 0; norm_num)

end ColoProxy
